import Mathlib

/-!
A shallow embedding, in Lean 4, of the session engine of the QuizNet
multiplayer quiz server (C sources under `server/src` and the question
module).  Pure C functions become Lean functions; the mutable `Session`
and server state become explicit records threaded through the
operations.  C `double` response times are modelled as rationals, C
`int`/`time_t` as `Int`, and C byte strings (where the byte-level accent
folding matters) as `List Nat`.  Randomness (`shuffle_array`, driven by
`rand()`) is modelled by an explicit shuffle oracle parameter; theorems
about shuffled data quantify over all permutation-producing oracles.
-/

namespace QuizNet

/-- `QuestionType` from `types.h`: QCM (multi-choice), boolean, text. -/
inductive QuestionType
  | qcm
  | boolean
  | text
deriving DecidableEq

/-- `Difficulty` from `types.h`. -/
inductive Difficulty
  | easy
  | medium
  | hard
deriving DecidableEq

/-- `GameMode` from `types.h`. -/
inductive GameMode
  | solo
  | battle
deriving DecidableEq

/-- `SessionStatus` from `types.h`. -/
inductive SessionStatus
  | waiting
  | playing
  | finished
deriving DecidableEq

/-- C `tolower` on a byte, in the default (ASCII) locale. -/
def c_tolower (c : Nat) : Nat :=
  if 65 ≤ c ∧ c ≤ 90 then c + 32 else c

/-- `normalize_accent` from `utils.c`: folds Latin-1 and two-byte UTF-8
(0xC3-prefixed) accented letters to their ASCII base letter.  Returns the
normalized byte together with the number of extra input bytes consumed
(the C out-parameter `skip`). -/
def normalize_accent (c next : Nat) : Nat × Nat :=
  if c = 0xC3 then
    -- UTF-8 lowercase block
    if 0xA0 ≤ next ∧ next ≤ 0xA5 then (97, 1)
    else if 0xA8 ≤ next ∧ next ≤ 0xAB then (101, 1)
    else if 0xAC ≤ next ∧ next ≤ 0xAF then (105, 1)
    else if 0xB2 ≤ next ∧ next ≤ 0xB6 then (111, 1)
    else if 0xB9 ≤ next ∧ next ≤ 0xBC then (117, 1)
    else if next = 0xBD ∨ next = 0xBF then (121, 1)
    else if next = 0xA7 then (99, 1)
    else if next = 0xB1 then (110, 1)
    -- UTF-8 uppercase block
    else if 0x80 ≤ next ∧ next ≤ 0x85 then (97, 1)
    else if 0x88 ≤ next ∧ next ≤ 0x8B then (101, 1)
    else if 0x8C ≤ next ∧ next ≤ 0x8F then (105, 1)
    else if 0x92 ≤ next ∧ next ≤ 0x96 then (111, 1)
    else if 0x99 ≤ next ∧ next ≤ 0x9C then (117, 1)
    else if next = 0x9D then (121, 1)
    else if next = 0x87 then (99, 1)
    else if next = 0x91 then (110, 1)
    else (c, 0)
  else if 0xC0 ≤ c ∧ c ≤ 0xC5 then (97, 0)
  else if 0xE0 ≤ c ∧ c ≤ 0xE5 then (97, 0)
  else if 0xC8 ≤ c ∧ c ≤ 0xCB then (101, 0)
  else if 0xE8 ≤ c ∧ c ≤ 0xEB then (101, 0)
  else if 0xCC ≤ c ∧ c ≤ 0xCF then (105, 0)
  else if 0xEC ≤ c ∧ c ≤ 0xEF then (105, 0)
  else if 0xD2 ≤ c ∧ c ≤ 0xD6 then (111, 0)
  else if 0xF2 ≤ c ∧ c ≤ 0xF6 then (111, 0)
  else if 0xD9 ≤ c ∧ c ≤ 0xDC then (117, 0)
  else if 0xF9 ≤ c ∧ c ≤ 0xFC then (117, 0)
  else if c = 0xC7 then (99, 0)
  else if c = 0xE7 then (99, 0)
  else if c = 0xD1 then (110, 0)
  else if c = 0xF1 then (110, 0)
  else if c = 0xDD ∨ c = 0xFD ∨ c = 0xFF then (121, 0)
  else (c, 0)

/-- The comparison loop of `str_equals` from `utils.c`: case-insensitive,
accent-folded byte string comparison, advancing `a += 1 + skip_a;
b += 1 + skip_b` per round.  A C string is a NUL-free byte list; the
fuel argument only makes the recursion structural. -/
def str_equals_fuel : Nat → List Nat → List Nat → Bool
  | _, [], [] => true
  | 0, _, _ => false
  | fuel + 1, ca :: arest, cb :: brest =>
    let na := normalize_accent ca (arest.headD 0)
    let nb := normalize_accent cb (brest.headD 0)
    if c_tolower na.1 ≠ c_tolower nb.1 then false
    else str_equals_fuel fuel (arest.drop na.2) (brest.drop nb.2)
  | _ + 1, _, _ => false

/-- Each comparison round consumes at least one byte of the left string,
so `a.length` rounds always suffice and the fuel never runs out. -/
def str_equals (a b : List Nat) : Bool :=
  str_equals_fuel a.length a b

/-- ASCII lower-casing of a character, as C `tolower` does byte-wise. -/
def ascii_tolower (c : Char) : Char :=
  if 65 ≤ c.toNat ∧ c.toNat ≤ 90 then Char.ofNat (c.toNat + 32) else c

/-- `str_equals_ignore_case` from `utils.c` (on NUL-free strings). -/
def str_equals_ignore_case (a b : String) : Bool :=
  a.data.map ascii_tolower == b.data.map ascii_tolower

/-- `string_to_difficulty` from `utils.c`: accepts French and English
spellings case-insensitively, defaulting to medium. -/
def string_to_difficulty (s : String) : Difficulty :=
  if str_equals_ignore_case s "facile" || str_equals_ignore_case s "easy" then .easy
  else if str_equals_ignore_case s "difficile" || str_equals_ignore_case s "hard" then .hard
  else .medium

/-- `string_to_mode` from `utils.c`. -/
def string_to_mode (s : String) : GameMode :=
  if str_equals_ignore_case s "battle" then .battle else .solo

/-- `Question` from `types.h`.  `answers` are the four QCM option
strings; `text_answers` the accepted byte strings for text questions. -/
structure Question where
  id : Int
  theme_ids : List Int
  difficulty : Difficulty
  qtype : QuestionType
  question : String
  answers : List String
  correct_answer : Int
  text_answers : List (List Nat)
  explanation : String
deriving DecidableEq

/-- `SessionPlayer` from `types.h`. -/
structure SessionPlayer where
  client_id : Int
  pseudo : String
  score : Int
  lives : Int
  correct_answers : Int
  has_answered : Bool
  was_correct : Bool
  current_answer : Int
  response_time : ℚ
  eliminated : Bool
  eliminated_at : Int
  joker_fifty_used : Bool
  joker_skip_used : Bool
  used_skip_this_question : Bool
deriving DecidableEq

/-- `Session` from `types.h`. -/
structure Session where
  id : Int
  name : String
  theme_ids : List Int
  difficulty : Difficulty
  num_questions : Int
  time_limit : Int
  mode : GameMode
  initial_lives : Int
  max_players : Int
  status : SessionStatus
  players : List SessionPlayer
  creator_client_id : Int
  question_ids : List Int
  current_question : Int
  question_start_time : Int
deriving DecidableEq

/-- The `SessionPlayer` initialization performed by `join_session`
(`server.c`): score 0, lives from the session, flags cleared. -/
def init_player (cid : Int) (ps : String) (lv : Int) : SessionPlayer :=
  { client_id := cid
    pseudo := ps
    score := 0
    lives := lv
    correct_answers := 0
    has_answered := false
    was_correct := false
    current_answer := -1
    response_time := 0
    eliminated := false
    eliminated_at := 0
    joker_fifty_used := false
    joker_skip_used := false
    used_skip_this_question := false }

/-- `check_answer` from the question module: QCM compares the index,
boolean compares against `correct_answer == 1`, text matches any accepted
answer under `str_equals`. -/
def check_answer (q : Question) (answer_index : Int) (text_answer : List Nat)
    (bool_answer : Bool) : Bool :=
  match q.qtype with
  | .qcm => answer_index == q.correct_answer
  | .boolean => bool_answer == (q.correct_answer == 1)
  | .text => q.text_answers.any (fun t => str_equals text_answer t)

/-- `calculate_points` from the question module: base points by
difficulty plus a speed bonus when answered in the first half of the time
limit. -/
def calculate_points (difficulty : Difficulty) (response_time : ℚ)
    (time_limit : Int) : Int :=
  let base_points : Int :=
    match difficulty with
    | .easy => 5
    | .medium => 10
    | .hard => 15
  let bonus_points : Int :=
    match difficulty with
    | .easy => 1
    | .medium => 3
    | .hard => 6
  if response_time ≤ (time_limit : ℚ) / 2 then base_points + bonus_points
  else base_points

/-- `find_session_player` from `server.c`: first player with the client id. -/
def find_session_player (s : Session) (cid : Int) : Option SessionPlayer :=
  s.players.find? (fun p => p.client_id == cid)

/-- Updating, in place, the first player with the given client id — the
list counterpart of mutating through the pointer returned by
`find_session_player`. -/
def update_first (ps : List SessionPlayer) (cid : Int)
    (f : SessionPlayer → SessionPlayer) : List SessionPlayer :=
  match ps with
  | [] => []
  | p :: rest =>
    if p.client_id == cid then f p :: rest else p :: update_first rest cid f

/-- `get_current_question` from `server.c`. -/
def get_current_question (questions : List Question) (s : Session) :
    Option Question :=
  if s.current_question < 0 ∨ s.num_questions ≤ s.current_question then none
  else
    match s.question_ids.get? s.current_question.toNat with
    | none => none
    | some qid => questions.find? (fun q => q.id == qid)

/-- The all-answered scan at the end of `process_answer`: every player is
eliminated or has answered. -/
def all_answered (s : Session) : Bool :=
  s.players.all (fun p => p.eliminated || p.has_answered)

/-- The unconditional field updates `process_answer` performs on the
answering player: mark answered, store the raw answer index and the
(possibly clamped) response time. -/
def record_answer (answer_index : Int) (response_time : ℚ)
    (p : SessionPlayer) : SessionPlayer :=
  { p with
    has_answered := true
    current_answer := answer_index
    response_time := response_time }

/-- The question-dependent updates `process_answer` performs after the
correctness check: boolean answers overwrite `current_answer` with 0/1,
correct answers earn points, and `was_correct` is stored. -/
def score_answer (q : Question) (bool_answer : Bool) (correct : Bool)
    (response_time : ℚ) (time_limit : Int) (p : SessionPlayer) : SessionPlayer :=
  let p :=
    if q.qtype = .boolean then
      { p with current_answer := if bool_answer then 1 else 0 }
    else p
  let p :=
    if correct then
      { p with
        score := p.score + calculate_points q.difficulty response_time time_limit
        correct_answers := p.correct_answers + 1 }
    else p
  { p with was_correct := correct }

/-- The correctness dispatch inside `process_answer`: `check_answer` is
called with the argument matching the question kind. -/
def answer_correct (q : Question) (answer_index : Int) (text_answer : List Nat)
    (bool_answer : Bool) : Bool :=
  match q.qtype with
  | .text => check_answer q 0 text_answer false
  | .boolean => check_answer q 0 [] bool_answer
  | .qcm => check_answer q answer_index [] false

/-- `process_answer` from `server.c`.  `now` is the wall clock read by
`time(NULL)`.  Returns the updated session and whether the all-answered
check fired (in C this triggers `send_question_results`). -/
def process_answer (questions : List Question) (s : Session) (client_id : Int)
    (answer_index : Int) (text_answer : List Nat) (bool_answer : Bool)
    (response_time : ℚ) (now : Int) : Session × Bool :=
  match find_session_player s client_id with
  | none => (s, false)
  | some player =>
    if player.has_answered || player.eliminated then (s, false)
    else
      let server_elapsed : Int := now - s.question_start_time
      let response_time :=
        if s.time_limit + 1 < server_elapsed then ((s.time_limit : ℚ) + 1)
        else response_time
      match get_current_question questions s with
      | none =>
        let ps1 :=
          update_first s.players client_id (record_answer answer_index response_time)
        let s1 := { s with players := ps1 }
        (s1, all_answered s1)
      | some q =>
        let correct := answer_correct q answer_index text_answer bool_answer
        let ps1 :=
          update_first s.players client_id (fun p =>
            score_answer q bool_answer correct response_time s.time_limit
              (record_answer answer_index response_time p))
        let s1 := { s with players := ps1 }
        (s1, all_answered s1)

/-- The correctness re-derivation used by the battle penalty loop in
`send_question_results`: QCM and boolean compare `current_answer` with
the stored correct answer, while for text questions the loop takes any
answered player to be correct. -/
def results_correct (q : Question) (p : SessionPlayer) : Bool :=
  match q.qtype with
  | .qcm => p.current_answer == q.correct_answer
  | .boolean => p.current_answer == q.correct_answer
  | .text => p.has_answered

/-- One iteration of the battle penalty loop in `send_question_results`:
skip eliminated and skipping players; an answered, not-correct player
loses a life and is eliminated when lives drop to 0 or below. -/
def penalty_step (q : Question) (qnum : Int) (p : SessionPlayer) : SessionPlayer :=
  if p.eliminated || p.used_skip_this_question then p
  else if !(results_correct q p) && p.has_answered then
    let lives := p.lives - 1
    if lives ≤ 0 then { p with lives := lives, eliminated := true, eliminated_at := qnum }
    else { p with lives := lives }
  else p

/-- Whether a player takes part in the slowest-player scan of
`send_question_results`: not eliminated (at loop entry), did not skip,
and answered. -/
def slowest_eligible (p : SessionPlayer) : Bool :=
  !(p.eliminated || p.used_skip_this_question) && p.has_answered

/-- The running-maximum scan of the battle penalty loop: `i` is the index
of the next player, the accumulator holds `max_response_time` (initially
0) and `last_player_index` (initially -1); only strictly larger response
times update it. -/
def find_slowest_aux : List SessionPlayer → Nat → ℚ × Int → ℚ × Int
  | [], _, acc => acc
  | p :: rest, i, acc =>
    if slowest_eligible p && acc.1 < p.response_time then
      find_slowest_aux rest (i + 1) (p.response_time, (i : Int))
    else find_slowest_aux rest (i + 1) acc

/-- The `last_player_index` computed by the battle loop of
`send_question_results`.  The scan reads each player's flags at its own
loop iteration, before that player is mutated, so it runs on the
pre-penalty player list. -/
def find_slowest (players : List SessionPlayer) : Int :=
  (find_slowest_aux players 0 (0, -1)).2

/-- The last-player penalty of `send_question_results`: if a slowest
player was identified and is not (by now) eliminated, and answered
correctly (text questions never count as correct here), they lose one
more life with the same elimination check. -/
def apply_last_penalty (q : Question) (qnum : Int)
    (players : List SessionPlayer) (idx : Int) : List SessionPlayer :=
  if idx < 0 then players
  else
    match players.get? idx.toNat with
    | none => players
    | some last =>
      if last.eliminated then players
      else
        let was_correct :=
          match q.qtype with
          | .qcm => last.current_answer == q.correct_answer
          | .boolean => last.current_answer == q.correct_answer
          | .text => false
        if was_correct then
          let lives := last.lives - 1
          let last :=
            if lives ≤ 0 then
              { last with lives := lives, eliminated := true, eliminated_at := qnum }
            else { last with lives := lives }
          players.set idx.toNat last
        else players

/-- The battle-mode mutation performed by `send_question_results` before
broadcasting: the per-player penalty loop followed by the last-player
penalty.  In solo mode the players are untouched. -/
def battle_results_update (q : Question) (s : Session) : Session :=
  if s.mode = .battle then
    let qnum := s.current_question + 1
    let idx := find_slowest s.players
    let players1 := s.players.map (penalty_step q qnum)
    { s with players := apply_last_penalty q qnum players1 idx }
  else s

/-- Modelled from the spec: `check_question_timeout` is declared in
`server/include/session.h` but has no definition anywhere in the source
tree, so its body is taken from spec §4.5.8: once `question-start-time +
Tq` has elapsed in a playing session with players still to answer, each
non-eliminated non-answerer is recorded as unanswered (`was-correct =
false`, `last-answer = none` i.e. -1, `response-time = Tq+1`) and the
results phase is triggered (the returned flag). -/
def check_question_timeout (s : Session) (now : Int) : Session × Bool :=
  if s.status = .playing ∧ s.question_start_time + s.time_limit ≤ now ∧
      all_answered s = false then
    let ps := s.players.map (fun p =>
      if !p.eliminated && !p.has_answered then
        { p with
          was_correct := false
          current_answer := -1
          response_time := (s.time_limit : ℚ) + 1 }
      else p)
    ({ s with players := ps }, true)
  else (s, false)

/-- The swap condition of the bubble sort in `end_session`: battle
compares lives, then `eliminated_at`, then score; solo compares score. -/
def swap_needed (mode : GameMode) (a b : SessionPlayer) : Bool :=
  match mode with
  | .battle =>
    if a.lives < b.lives then true
    else if a.lives == b.lives then
      if a.eliminated_at < b.eliminated_at then true
      else if a.eliminated_at == b.eliminated_at then decide (a.score < b.score)
      else false
    else false
  | .solo => decide (a.score < b.score)

/-- One inner pass of the `end_session` bubble sort, with `k` comparisons
remaining (the C loop bound `j < n - i - 1`): adjacent out-of-order
elements are swapped left to right. -/
def bpass {α : Type} (lt : α → α → Bool) : Nat → List α → List α
  | _, [] => []
  | _, [a] => [a]
  | 0, a :: b :: t => a :: b :: t
  | k + 1, a :: b :: t =>
    if lt a b then b :: bpass lt k (a :: t) else a :: bpass lt k (b :: t)

/-- The outer loop of the `end_session` bubble sort: pass `i` of the C
code performs `n - 1 - i` comparisons, so the passes run with `k`,
`k - 1`, ..., `1` comparisons. -/
def bsortAux {α : Type} (lt : α → α → Bool) : Nat → List α → List α
  | 0, l => l
  | k + 1, l => bsortAux lt k (bpass lt (k + 1) l)

/-- The full bubble sort of `end_session` (`n - 1` passes). -/
def bubble_sort {α : Type} (lt : α → α → Bool) (l : List α) : List α :=
  bsortAux lt (l.length - 1) l

/-- The sorted player array `end_session` builds for the
`session/finished` broadcast. -/
def end_session_ranking (s : Session) : List SessionPlayer :=
  bubble_sort (swap_needed s.mode) s.players

/-- The mode, winner and ranking carried by the `session/finished`
broadcast of `end_session`. -/
structure FinishedBroadcast where
  mode : GameMode
  winner : Option String
  ranking : List SessionPlayer
deriving DecidableEq

/-- `end_session` output: in battle mode the winner field carries the
pseudo of `sorted_players[0]`. -/
def end_session_broadcast (s : Session) : FinishedBroadcast :=
  let sorted := end_session_ranking s
  { mode := s.mode
    winner := if s.mode = .battle then sorted.head?.map (fun p => p.pseudo) else none
    ranking := sorted }

/-- The descending solo ranking relation of spec §4.5.11: score
descending. -/
def solo_rank_ge (u v : SessionPlayer) : Prop :=
  v.score ≤ u.score

/-- The descending battle ranking relation of spec §4.5.11: lives
descending, then `eliminated_at` descending, then score descending. -/
def battle_rank_ge (u v : SessionPlayer) : Prop :=
  v.lives < u.lives ∨
    (v.lives = u.lives ∧
      (v.eliminated_at < u.eliminated_at ∨
        (v.eliminated_at = u.eliminated_at ∧ v.score ≤ u.score)))

/-- The battle sort key as a lexicographic triple. -/
def battle_key (p : SessionPlayer) : Int ×ₗ (Int ×ₗ Int) :=
  toLex (p.lives, toLex (p.eliminated_at, p.score))

/-- `MAX_SESSIONS` from `types.h`. -/
def MAX_SESSIONS : Int := 20

/-- The part of `ServerState` (`types.h`) the session engine reads: the
fixed array of session slots, the session counter, the monotone session
id, and the question bank. -/
structure ServerSt where
  sessions : List Session
  num_sessions : Int
  next_session_id : Int
  questions : List Question
deriving DecidableEq

/-- An all-zero session slot, as `memset(session, 0, sizeof(Session))`
leaves it (enum fields become their 0 values). -/
def empty_session : Session :=
  { id := 0
    name := ""
    theme_ids := []
    difficulty := .easy
    num_questions := 0
    time_limit := 0
    mode := .solo
    initial_lives := 0
    max_players := 0
    status := .waiting
    players := []
    creator_client_id := 0
    question_ids := []
    current_question := 0
    question_start_time := 0 }

/-- The slot scan of `create_session`: the first slot whose status is
finished or whose id is 0. -/
def find_slot : List Session → Option Nat
  | [] => none
  | s :: rest =>
    if s.status == SessionStatus.finished || s.id == 0 then some 0
    else (find_slot rest).map (· + 1)

/-- The filter of `select_questions_for_session`: difficulty matches and
some theme of the question is among the session's themes. -/
def question_matches (s : Session) (q : Question) : Bool :=
  q.difficulty == s.difficulty &&
    q.theme_ids.any (fun t => s.theme_ids.contains t)

/-- `select_questions_for_session` from the question module: filter the
bank, fail if fewer matches than needed, otherwise shuffle and take the
first `num_questions` ids.  The Fisher-Yates shuffle of the matching
indices is modelled by the `shuffle` oracle on the matching ids. -/
def select_questions (questions : List Question) (s : Session)
    (shuffle : List Int → List Int) : Option (List Int) :=
  let matching := questions.filter (question_matches s)
  if (matching.length : Int) < s.num_questions then none
  else some ((shuffle (matching.map (fun q => q.id))).take s.num_questions.toNat)

/-- `create_session` from `server.c`.  Returns the created session with
its slot index, or `none` on failure; `next_session_id` is consumed as
soon as a slot is claimed, and on selection failure the slot is zeroed
(`memset`) again. -/
def create_session (shuffle : List Int → List Int) (st : ServerSt)
    (name : String) (theme_ids : List Int) (difficulty : Difficulty)
    (num_questions : Int) (time_limit : Int) (mode : GameMode)
    (initial_lives : Int) (max_players : Int) (creator_client_id : Int) :
    Option (Nat × Session) × ServerSt :=
  if MAX_SESSIONS ≤ st.num_sessions then (none, st)
  else
    match find_slot st.sessions with
    | none => (none, st)
    | some i =>
      let s0 : Session :=
        { id := st.next_session_id
          name := name
          theme_ids := theme_ids
          difficulty := difficulty
          num_questions := num_questions
          time_limit := time_limit
          mode := mode
          initial_lives := if mode = .battle then initial_lives else 0
          max_players := max_players
          status := .waiting
          players := []
          creator_client_id := creator_client_id
          question_ids := []
          current_question := -1
          question_start_time := 0 }
      let st1 := { st with next_session_id := st.next_session_id + 1 }
      match select_questions st.questions s0 shuffle with
      | none => (none, { st1 with sessions := st1.sessions.set i empty_session })
      | some qids =>
        let s1 := { s0 with question_ids := qids }
        (some (i, s1),
          { st1 with
            sessions := st1.sessions.set i s1
            num_sessions := st.num_sessions + 1 })

/-- `join_session` from `server.c` (the session mutation; error codes -1
not waiting, -2 full, -3 already joined). -/
def join_session (s : Session) (cid : Int) (pseudo : String) :
    Except Int Session :=
  if s.status ≠ .waiting then .error (-1)
  else if s.max_players ≤ (s.players.length : Int) then .error (-2)
  else if s.players.any (fun p => p.client_id == cid) then .error (-3)
  else .ok { s with players := s.players ++ [init_player cid pseudo s.initial_lives] }

/-- The `session/create` request body (`handle_create_session`,
`handlers/session.c`); `none` models a missing field, and for `lives` a
missing or non-numeric field. -/
structure CreateRequest where
  name : Option String
  themeIds : Option (List Int)
  difficulty : Option String
  nbQuestions : Option Int
  timeLimit : Option Int
  mode : Option String
  maxPlayers : Option Int
  lives : Option Int
deriving DecidableEq

/-- A `statut`/`message` response pair. -/
structure Response where
  statut : String
  message : String
deriving DecidableEq

/-- The battle-mode lives guard of `handle_create_session`: in battle
mode a missing or non-numeric `lives` field fails (`none`), as does a
value outside [1, 10]; otherwise the value (or the solo default 3) is
returned. -/
def battle_lives_check (modeStr : String) (lives : Option Int) : Option Int :=
  if modeStr == "battle" then
    match lives with
    | none => none
    | some l => if l < 1 ∨ 10 < l then none else some l
  else some 3

/-- `handle_create_session` from `handlers/session.c`: authentication,
field presence, the battle-mode lives guard, the range guards, then
`create_session`; on success the creator is joined into the new session
(the join result is not checked) and 201 is returned. -/
def handle_create_session (shuffle : List Int → List Int) (st : ServerSt)
    (authenticated : Bool) (client_id : Int) (pseudo : String)
    (req : CreateRequest) : Response × ServerSt :=
  if !authenticated then (⟨"401", "not authenticated"⟩, st)
  else
    match req.name, req.themeIds, req.difficulty, req.nbQuestions,
        req.timeLimit, req.mode, req.maxPlayers with
    | some name, some themeIds, some diffStr, some nbQ, some tLim,
        some modeStr, some maxP =>
      match battle_lives_check modeStr req.lives with
      | none => (⟨"400", "invalid lives"⟩, st)
      | some initial_lives =>
        if nbQ < 10 ∨ 50 < nbQ ∨ tLim < 10 ∨ 60 < tLim ∨ maxP < 2 then
          (⟨"400", "invalid parameters"⟩, st)
        else
          match create_session shuffle st name (themeIds.take 20)
              (string_to_difficulty diffStr) nbQ tLim (string_to_mode modeStr)
              initial_lives maxP client_id with
          | (none, st1) => (⟨"400", "not enough questions matching criteria"⟩, st1)
          | (some (i, session), st1) =>
            match join_session session client_id pseudo with
            | .ok s2 =>
              (⟨"201", "session created"⟩, { st1 with sessions := st1.sessions.set i s2 })
            | .error _ => (⟨"201", "session created"⟩, st1)
    | _, _, _, _, _, _, _ => (⟨"400", "Bad request"⟩, st)

/-- The JSON `answer` field of a `question/answer` request: integer,
string (byte string), boolean, or any other JSON value. -/
inductive AnswerValue
  | num (i : Int)
  | str (s : List Nat)
  | bool (b : Bool)
  | other
deriving DecidableEq

/-- The `question/answer` request body; `none` models a missing field. -/
structure AnswerRequest where
  answer : Option AnswerValue
  responseTime : Option ℚ
deriving DecidableEq

/-- `find_session` from `server.c`: first slot with the id. -/
def find_session (st : ServerSt) (sid : Int) : Option Session :=
  st.sessions.find? (fun s => s.id == sid)

/-- `handle_answer` from `handlers/game.c`: precondition checks, the
answer-kind dispatch (strings are truncated to 127 bytes by `strncpy`),
then `process_answer` and an unconditional 200 acknowledgement.  Returns
the response and, when `process_answer` ran, the updated session with
the results-trigger flag. -/
def handle_answer (st : ServerSt) (client_session_id client_id : Int)
    (req : AnswerRequest) (now : Int) : Response × Option (Session × Bool) :=
  if client_session_id < 0 then (⟨"400", "not in a session"⟩, none)
  else
    match find_session st client_session_id with
    | none => (⟨"400", "session not playing"⟩, none)
    | some session =>
      if session.status ≠ .playing then (⟨"400", "session not playing"⟩, none)
      else
        match req.responseTime with
        | none => (⟨"400", "Bad request"⟩, none)
        | some rt =>
          let answer_index :=
            match req.answer with
            | some (.num i) => i
            | _ => -1
          let text_answer :=
            match req.answer with
            | some (.str bs) => bs.take 127
            | _ => []
          let bool_answer :=
            match req.answer with
            | some (.bool b) => b
            | _ => false
          let r := process_answer st.questions session client_id answer_index
            text_answer bool_answer rt now
          (⟨"200", "answer received"⟩, some r)

/-- `use_joker_fifty` from `server.c`: error -1 when the player is
missing, has used fifty, or has answered; error -2 when there is no
current QCM question.  On success the player is marked, the three wrong
option indices are shuffled (the `shuffle3` oracle stands for
`shuffle_array`), and the first two are the removed options. -/
def use_joker_fifty (questions : List Question) (s : Session) (client_id : Int)
    (shuffle3 : List Int → List Int) : Except Int (Session × Int × Int) :=
  match find_session_player s client_id with
  | none => .error (-1)
  | some player =>
    if player.joker_fifty_used || player.has_answered then .error (-1)
    else
      match get_current_question questions s with
      | none => .error (-2)
      | some q =>
        if q.qtype ≠ .qcm then .error (-2)
        else
          let ps1 := update_first s.players client_id
            (fun p => { p with joker_fifty_used := true })
          let s1 := { s with players := ps1 }
          let wrong := ([0, 1, 2, 3] : List Int).filter
            (fun i => i != q.correct_answer)
          let shuffled := shuffle3 wrong
          .ok (s1, shuffled.getD 0 0, shuffled.getD 1 0)

/-- The option indices `handle_joker` keeps after a successful fifty:
all of 0..3 except the two removed ones. -/
def fifty_remaining_indices (r0 r1 : Int) : List Int :=
  ([0, 1, 2, 3] : List Int).filter (fun i => i != r0 && i != r1)

/-- The fifty branch of `handle_joker` (`handlers/joker.c`): any
`use_joker_fifty` failure becomes a 400 "joker not available"; success
becomes a 200 with the remaining option strings (looked up through the
session's current question id). -/
def handle_joker_fifty (questions : List Question) (s : Session)
    (client_id : Int) (shuffle3 : List Int → List Int) :
    Response × List String × Session :=
  match use_joker_fifty questions s client_id shuffle3 with
  | .error _ => (⟨"400", "joker not available"⟩, [], s)
  | .ok (s1, r0, r1) =>
    let qfound : Option Question :=
      match s.question_ids.get? s.current_question.toNat with
      | none => none
      | some qid => questions.find? (fun qq => qq.id == qid)
    match qfound with
    | none => (⟨"200", "joker activated"⟩, [], s1)
    | some q =>
      (⟨"200", "joker activated"⟩,
        (fifty_remaining_indices r0 r1).map (fun i => q.answers.getD i.toNat ""),
        s1)

/-! Concrete data used to exercise the definitions. -/

/-- The identity shuffle oracle (one possible outcome of `shuffle_array`). -/
def idShuffle : List Int → List Int := fun l => l

/-- A concrete medium QCM question (correct option index 2). -/
def qcmQ : Question :=
  { id := 1
    theme_ids := [0]
    difficulty := .medium
    qtype := .qcm
    question := "q1"
    answers := ["a", "b", "c", "d"]
    correct_answer := 2
    text_answers := []
    explanation := "" }

/-- The bytes of the string paris. -/
def parisBytes : List Nat := [112, 97, 114, 105, 115]

/-- The bytes of the string lyon. -/
def lyonBytes : List Nat := [108, 121, 111, 110]

/-- A concrete easy text question accepting paris. -/
def textQ : Question :=
  { id := 2
    theme_ids := [0]
    difficulty := .easy
    qtype := .text
    question := "q2"
    answers := []
    correct_answer := 0
    text_answers := [parisBytes]
    explanation := "" }

/-- A two-player battle session (3 lives) playing the text question. -/
def battleTextSession : Session :=
  { id := 1
    name := "s"
    theme_ids := [0]
    difficulty := .easy
    num_questions := 10
    time_limit := 20
    mode := .battle
    initial_lives := 3
    max_players := 4
    status := .playing
    players := [init_player 1 "alice" 3, init_player 2 "bob" 3]
    creator_client_id := 1
    question_ids := [2]
    current_question := 0
    question_start_time := 100 }

/-- A two-player battle session (3 lives) playing the QCM question. -/
def battleQcmSession : Session :=
  { id := 1
    name := "s"
    theme_ids := [0]
    difficulty := .medium
    num_questions := 10
    time_limit := 20
    mode := .battle
    initial_lives := 3
    max_players := 4
    status := .playing
    players := [init_player 1 "alice" 3, init_player 2 "bob" 3]
    creator_client_id := 1
    question_ids := [1]
    current_question := 0
    question_start_time := 100 }

/-- A two-player solo session playing the QCM question. -/
def soloQcmSession : Session :=
  { id := 1
    name := "s"
    theme_ids := [0]
    difficulty := .medium
    num_questions := 10
    time_limit := 20
    mode := .solo
    initial_lives := 0
    max_players := 4
    status := .playing
    players := [init_player 1 "alice" 0, init_player 2 "bob" 0]
    creator_client_id := 1
    question_ids := [1]
    current_question := 0
    question_start_time := 100 }

/-- A server state holding the solo QCM session. -/
def soloSt : ServerSt :=
  { sessions := [soloQcmSession]
    num_sessions := 1
    next_session_id := 2
    questions := [qcmQ] }

/-- An eliminated player with 0 lives and score 10, out at question 3. -/
def rankAlice : SessionPlayer :=
  { init_player 1 "alice" 3 with lives := 0, eliminated := true, eliminated_at := 3, score := 10 }

/-- A surviving player with 2 lives and score 5. -/
def rankBob : SessionPlayer :=
  { init_player 2 "bob" 3 with lives := 2, score := 5 }

/-- A surviving player with 2 lives and score 9. -/
def rankCarol : SessionPlayer :=
  { init_player 3 "carol" 3 with lives := 2, score := 9 }

/-- A three-player roster with distinct battle ranks, for the ranking
theorems. -/
def rankSession : Session :=
  { soloQcmSession with mode := .battle, players := [rankAlice, rankBob, rankCarol] }

/-- An empty server state (no sessions, no questions). -/
def emptySt : ServerSt :=
  { sessions := [empty_session]
    num_sessions := 0
    next_session_id := 1
    questions := [] }

/-- A well-formed create request except for the too-small question count. -/
def badCreateReq : CreateRequest :=
  { name := some "s"
    themeIds := some [0]
    difficulty := some "easy"
    nbQuestions := some 5
    timeLimit := some 20
    mode := some "solo"
    maxPlayers := some 4
    lives := none }

/-! Theorems. -/

/-- `record_answer` keeps the player's id. -/
theorem record_answer_client_id (a : Int) (r : ℚ) (p : SessionPlayer) :
    (record_answer a r p).client_id = p.client_id := rfl

/-- `record_answer` marks the player answered. -/
theorem record_answer_has_answered (a : Int) (r : ℚ) (p : SessionPlayer) :
    (record_answer a r p).has_answered = true := rfl

/-- `record_answer` stores the response time. -/
theorem record_answer_response_time (a : Int) (r : ℚ) (p : SessionPlayer) :
    (record_answer a r p).response_time = r := rfl

/-- `score_answer` keeps the player's id. -/
theorem score_answer_client_id (q : Question) (b c : Bool) (r : ℚ) (tl : Int)
    (p : SessionPlayer) : (score_answer q b c r tl p).client_id = p.client_id := by
  simp only [score_answer]
  split_ifs <;> rfl

/-- `score_answer` keeps the answered flag. -/
theorem score_answer_has_answered (q : Question) (b c : Bool) (r : ℚ) (tl : Int)
    (p : SessionPlayer) :
    (score_answer q b c r tl p).has_answered = p.has_answered := by
  simp only [score_answer]
  split_ifs <;> rfl

/-- `score_answer` keeps the response time. -/
theorem score_answer_response_time (q : Question) (b c : Bool) (r : ℚ) (tl : Int)
    (p : SessionPlayer) :
    (score_answer q b c r tl p).response_time = p.response_time := by
  simp only [score_answer]
  split_ifs <;> rfl

/-- `score_answer` adds the computed points exactly when the answer was
correct. -/
theorem score_answer_score (q : Question) (b c : Bool) (r : ℚ) (tl : Int)
    (p : SessionPlayer) :
    (score_answer q b c r tl p).score =
      if c then p.score + calculate_points q.difficulty r tl else p.score := by
  simp only [score_answer]
  split_ifs <;> rfl

/-- Updating the first player with a given id commutes with looking that
player up, provided the update keeps the id. -/
theorem find?_update_first (ps : List SessionPlayer) (cid : Int)
    (f : SessionPlayer → SessionPlayer) (hf : ∀ p, (f p).client_id = p.client_id) :
    (update_first ps cid f).find? (fun p => p.client_id == cid) =
      (ps.find? (fun p => p.client_id == cid)).map f := by
  induction ps with
  | nil => simp [update_first]
  | cons p rest ih =>
    by_cases h : p.client_id == cid
    · simp [update_first, h, List.find?_cons_of_pos, hf p]
    · simp only [update_first, h, if_false, Bool.false_eq_true]
      rw [List.find?_cons_of_neg _ (by simp [hf p, h]),
        List.find?_cons_of_neg _ (by simp [h]), ih]

/-- The composite player update of an accepted answer keeps the id. -/
theorem answer_update_client_id (q : Question) (ai : Int) (ba c : Bool) (r : ℚ)
    (tl : Int) (p : SessionPlayer) :
    (score_answer q ba c r tl (record_answer ai r p)).client_id = p.client_id := by
  rw [score_answer_client_id, record_answer_client_id]

/-- A `process_answer` call that finds the player already answered (or
eliminated, or absent) returns the session unchanged and does not trigger
results. -/
theorem process_answer_rejected (questions : List Question) (s : Session)
    (cid ai : Int) (ta : List Nat) (ba : Bool) (rt : ℚ) (now : Int)
    (h : ∀ p, find_session_player s cid = some p →
      p.has_answered = true ∨ p.eliminated = true) :
    process_answer questions s cid ai ta ba rt now = (s, false) := by
  unfold process_answer
  cases hf : find_session_player s cid with
  | none => rfl
  | some p =>
    rcases h p hf with h1 | h1 <;> simp [h1]

/-- Looking up a player after `update_first` on the same id yields the
updated player, provided the update keeps ids. -/
theorem find_session_player_update (s : Session) (cid : Int)
    (f : SessionPlayer → SessionPlayer)
    (hf : ∀ p, (f p).client_id = p.client_id) (ps1 : List SessionPlayer)
    (hps : ps1 = update_first s.players cid f) :
    find_session_player { s with players := ps1 } cid =
      (find_session_player s cid).map f := by
  subst hps
  exact find?_update_first s.players cid f hf

/-- An accepted `process_answer` call updates exactly the answering
player, via the recorded-answer and scoring updates. -/
theorem process_answer_accepted (questions : List Question) (s : Session)
    (cid ai : Int) (ta : List Nat) (ba : Bool) (rt : ℚ) (now : Int)
    (p : SessionPlayer) (hfind : find_session_player s cid = some p)
    (hans : p.has_answered = false) (helim : p.eliminated = false) :
    find_session_player (process_answer questions s cid ai ta ba rt now).1 cid =
      some ((fun p0 =>
        match get_current_question questions s with
        | none => record_answer ai
            (if s.time_limit + 1 < now - s.question_start_time
              then ((s.time_limit : ℚ) + 1) else rt) p0
        | some q => score_answer q ba (answer_correct q ai ta ba)
            (if s.time_limit + 1 < now - s.question_start_time
              then ((s.time_limit : ℚ) + 1) else rt) s.time_limit
            (record_answer ai
              (if s.time_limit + 1 < now - s.question_start_time
                then ((s.time_limit : ℚ) + 1) else rt) p0)) p) := by
  unfold process_answer
  rw [hfind]
  simp only [hans, helim, Bool.or_self, Bool.false_eq_true, if_false]
  generalize (if s.time_limit + 1 < now - s.question_start_time
    then ((s.time_limit : ℚ) + 1) else rt) = rtv
  cases hq : get_current_question questions s with
  | none =>
    simp only [hq]
    rw [find_session_player_update s cid (record_answer ai rtv)
      (fun p0 => rfl) _ rfl, hfind]
    rfl
  | some q =>
    simp only [hq]
    rw [find_session_player_update s cid
      (fun p0 => score_answer q ba (answer_correct q ai ta ba) rtv s.time_limit
        (record_answer ai rtv p0))
      (fun p0 => answer_update_client_id q ai ba _ _ _ p0) _ rfl, hfind]
    rfl

/-- Claim C6: a second `question/answer` from the same client for the
same question is a no-op: `process_answer` applied after any
`process_answer` call returns the intermediate session unchanged (so
score, was-correct, recorded answer and response time are untouched) and
does not trigger results again. -/
theorem C6_second_answer_idempotent (questions : List Question) (s : Session)
    (cid : Int) (ai1 : Int) (ta1 : List Nat) (ba1 : Bool) (rt1 : ℚ) (now1 : Int)
    (ai2 : Int) (ta2 : List Nat) (ba2 : Bool) (rt2 : ℚ) (now2 : Int) :
    process_answer questions
        (process_answer questions s cid ai1 ta1 ba1 rt1 now1).1
        cid ai2 ta2 ba2 rt2 now2 =
      ((process_answer questions s cid ai1 ta1 ba1 rt1 now1).1, false) := by
  cases hf : find_session_player s cid with
  | none =>
    have h1 : process_answer questions s cid ai1 ta1 ba1 rt1 now1 = (s, false) :=
      process_answer_rejected _ _ _ _ _ _ _ _ (fun p hp => by rw [hf] at hp; cases hp)
    rw [h1]
    exact process_answer_rejected _ _ _ _ _ _ _ _ (fun p hp => by rw [hf] at hp; cases hp)
  | some p =>
    by_cases hans : p.has_answered = true
    · have h1 : process_answer questions s cid ai1 ta1 ba1 rt1 now1 = (s, false) :=
        process_answer_rejected _ _ _ _ _ _ _ _
          (fun p' hp' => by rw [hf] at hp'; cases hp'; exact Or.inl hans)
      rw [h1]
      exact process_answer_rejected _ _ _ _ _ _ _ _
        (fun p' hp' => by rw [hf] at hp'; cases hp'; exact Or.inl hans)
    · by_cases helim : p.eliminated = true
      · have h1 : process_answer questions s cid ai1 ta1 ba1 rt1 now1 = (s, false) :=
          process_answer_rejected _ _ _ _ _ _ _ _
            (fun p' hp' => by rw [hf] at hp'; cases hp'; exact Or.inr helim)
        rw [h1]
        exact process_answer_rejected _ _ _ _ _ _ _ _
          (fun p' hp' => by rw [hf] at hp'; cases hp'; exact Or.inr helim)
      · have hans' : p.has_answered = false := by
          cases h : p.has_answered
          · rfl
          · exact absurd h hans
        have helim' : p.eliminated = false := by
          cases h : p.eliminated
          · rfl
          · exact absurd h helim
        have h2 := process_answer_accepted questions s cid ai1 ta1 ba1 rt1 now1 p
          hf hans' helim'
        apply process_answer_rejected
        intro p' hp'
        rw [h2] at hp'
        cases hp'
        left
        cases hq : get_current_question questions s <;>
          simp only [hq, score_answer_has_answered, record_answer_has_answered]

/-- Claim C3 (scoring): `calculate_points` awards the difficulty base
(easy 5, medium 10, hard 15) plus the speed bonus (easy 1, medium 3,
hard 6) exactly when the response time is at most half the time limit;
and an accepted answer adds those points to the score when correct and
nothing when incorrect. -/
theorem C3_scoring (questions : List Question) (q : Question) (s : Session)
    (cid ai : Int) (ta : List Nat) (ba : Bool) (rt : ℚ) (now : Int)
    (p : SessionPlayer)
    (hfind : find_session_player s cid = some p)
    (hans : p.has_answered = false) (helim : p.eliminated = false)
    (hq : get_current_question questions s = some q) :
    (∀ d rtx tl, calculate_points d rtx tl =
      (match d with | .easy => 5 | .medium => 10 | .hard => 15) +
        (if rtx ≤ (tl : ℚ) / 2 then
          (match d with | .easy => 1 | .medium => 3 | .hard => 6) else 0)) ∧
    (∃ p', find_session_player
        (process_answer questions s cid ai ta ba rt now).1 cid = some p' ∧
      (answer_correct q ai ta ba = true →
        p'.score = p.score + calculate_points q.difficulty
          (if s.time_limit + 1 < now - s.question_start_time
            then ((s.time_limit : ℚ) + 1) else rt) s.time_limit) ∧
      (answer_correct q ai ta ba = false → p'.score = p.score)) := by
  constructor
  · intro d rtx tl
    cases d <;> simp only [calculate_points] <;> split <;> simp
  · have h2 := process_answer_accepted questions s cid ai ta ba rt now p
      hfind hans helim
    rw [hq] at h2
    refine ⟨_, h2, ?_, ?_⟩
    · intro hc
      simp only [score_answer_score, hc, if_true]
      rfl
    · intro hc
      simp only [score_answer_score, hc, Bool.false_eq_true, if_false]
      rfl

/-- Claim C3 witness: alice answers the medium QCM question correctly in
5 seconds (half of 20 is 10, so the bonus applies): 13 points. -/
theorem C3_witness :
    (∃ p', find_session_player
        (process_answer [qcmQ] soloQcmSession 1 2 [] false 5 101).1 1 = some p' ∧
      p'.score = 13) := by
  have h := C3_scoring [qcmQ] qcmQ soloQcmSession 1 2 [] false 5 101
    (init_player 1 "alice" 0) (by rfl) (by rfl) (by rfl) (by rfl)
  obtain ⟨p', hp', hcorr, _⟩ := h.2
  refine ⟨p', hp', ?_⟩
  rw [hcorr (by rfl)]
  norm_num [init_player, qcmQ, soloQcmSession, calculate_points]

/-- Claim C7 counterexample: with the clock still at the question start
(elapsed 0), a submitted response time of 1000 — far outside
[0, Tq+1] = [0, 21] — is recorded unchanged instead of being clamped to
21. -/
theorem C7_counterexample :
    (((process_answer [qcmQ] soloQcmSession 1 2 [] false 1000 100).1.players.get? 0).map
        (fun p => p.response_time)) = some 1000 ∧
      ¬ ((0 : ℚ) ≤ 1000 ∧ (1000 : ℚ) ≤ 20 + 1) ∧ (1000 : ℚ) ≠ 20 + 1 := by
  refine ⟨?_, by norm_num, by norm_num⟩
  rfl

/-- Claim C7 (amended): `process_answer` records the time limit plus one
as the response time exactly when the server-measured elapsed time since
the question started exceeds the time limit plus one; otherwise the
submitted response time is recorded unchanged, whatever its value. -/
theorem C7_server_side_clamp (questions : List Question) (s : Session)
    (cid ai : Int) (ta : List Nat) (ba : Bool) (rt : ℚ) (now : Int)
    (p : SessionPlayer)
    (hfind : find_session_player s cid = some p)
    (hans : p.has_answered = false) (helim : p.eliminated = false) :
    ∃ p', find_session_player
        (process_answer questions s cid ai ta ba rt now).1 cid = some p' ∧
      p'.response_time =
        (if s.time_limit + 1 < now - s.question_start_time
          then ((s.time_limit : ℚ) + 1) else rt) := by
  have h2 := process_answer_accepted questions s cid ai ta ba rt now p
    hfind hans helim
  refine ⟨_, h2, ?_⟩
  cases hq : get_current_question questions s <;>
    simp only [hq, score_answer_response_time, record_answer_response_time]

/-- Claim C7 witness: with elapsed time 30 > 21 the recorded response
time is clamped to 21. -/
theorem C7_witness :
    ∃ p', find_session_player
        (process_answer [qcmQ] soloQcmSession 1 2 [] false 5 130).1 1 = some p' ∧
      p'.response_time = 21 := by
  obtain ⟨p', hp', hrt⟩ := C7_server_side_clamp [qcmQ] soloQcmSession 1 2 [] false 5 130
    (init_player 1 "alice" 0) (by rfl) (by rfl) (by rfl)
  refine ⟨p', hp', ?_⟩
  rw [hrt]
  norm_num [soloQcmSession]

/-- Claim C10: whenever the client is in a session that exists and is
playing and the request carries a responseTime field, `handle_answer`
acknowledges with statut 200 and message answer received — regardless of
whether the answer is actually honored (the player may be absent from
the roster, already answered, or eliminated). -/
theorem C10_always_ack (st : ServerSt) (csid cid : Int) (req : AnswerRequest)
    (now : Int) (session : Session) (rt : ℚ)
    (hid : 0 ≤ csid)
    (hs : find_session st csid = some session)
    (hplay : session.status = .playing)
    (hrt : req.responseTime = some rt) :
    (handle_answer st csid cid req now).1 = ⟨"200", "answer received"⟩ := by
  unfold handle_answer
  rw [if_neg (by omega), hs]
  simp [hplay, hrt]

/-- Claim C10 witness: client 3 is not even a member of the playing solo
session, yet the answer request is acknowledged with 200. -/
theorem C10_witness :
    (handle_answer soloSt 1 3 ⟨some (.num 2), some 5⟩ 101).1 =
      ⟨"200", "answer received"⟩ ∧
      find_session_player soloQcmSession 3 = none :=
  ⟨C10_always_ack soloSt 1 3 ⟨some (.num 2), some 5⟩ 101 soloQcmSession 5
      (by decide) (by rfl) (by rfl) (by rfl),
    by rfl⟩

/-- Claim C2 (spec-modelled): once the per-question time limit has
elapsed in a playing session where not everyone answered, the timeout
check triggers the results phase and records every non-eliminated
non-answerer as unanswered: was-correct false, answer -1 (none),
response time Tq+1; already-answered or eliminated players are
untouched. -/
theorem C2_timeout_fires (s : Session) (now : Int)
    (hplay : s.status = .playing)
    (helapsed : s.question_start_time + s.time_limit ≤ now)
    (hnot : all_answered s = false) :
    (check_question_timeout s now).2 = true ∧
    ∀ i p, s.players.get? i = some p →
      ((p.eliminated = false → p.has_answered = false →
        (check_question_timeout s now).1.players.get? i =
          some { p with
            was_correct := false
            current_answer := -1
            response_time := (s.time_limit : ℚ) + 1 }) ∧
      ((p.eliminated = true ∨ p.has_answered = true) →
        (check_question_timeout s now).1.players.get? i = some p)) := by
  have hcond : s.status = .playing ∧ s.question_start_time + s.time_limit ≤ now ∧
      all_answered s = false := ⟨hplay, helapsed, hnot⟩
  constructor
  · simp only [check_question_timeout, if_pos hcond]
  · intro i p hp
    constructor
    · intro he ha
      simp only [check_question_timeout, if_pos hcond, List.get?_map, hp]
      simp [he, ha]
    · intro h
      simp only [check_question_timeout, if_pos hcond, List.get?_map, hp]
      rcases h with h | h <;> simp [h]

/-- Claim C2 witness: in the playing battle session (started at 100,
limit 20) at time 125 with nobody having answered, the timeout fires and
records alice as unanswered with response time 21. -/
theorem C2_witness :
    (check_question_timeout battleTextSession 125).2 = true ∧
      (check_question_timeout battleTextSession 125).1.players.get? 0 =
        some { init_player 1 "alice" 3 with
          was_correct := false
          current_answer := -1
          response_time := (21 : ℚ) } := by
  have h := C2_timeout_fires battleTextSession 125 (by rfl) (by decide) (by rfl)
  refine ⟨h.1, ?_⟩
  have h2 := ((h.2 0 (init_player 1 "alice" 3) (by rfl)).1 (by rfl) (by rfl))
  rw [h2]
  simp only [battleTextSession, init_player, Option.some.injEq, SessionPlayer.mk.injEq]
  norm_num

/-- A bubble pass permutes its input. -/
theorem bpass_perm {α : Type} (lt : α → α → Bool) :
    ∀ (k : Nat) (l : List α), List.Perm (bpass lt k l) l := by
  intro k
  induction k with
  | zero =>
    intro l
    match l with
    | [] => exact List.Perm.refl _
    | [a] => exact List.Perm.refl _
    | a :: b :: t => exact List.Perm.refl _
  | succ k ih =>
    intro l
    match l with
    | [] => exact List.Perm.refl _
    | [a] => exact List.Perm.refl _
    | a :: b :: t =>
      by_cases h : lt a b
      · simp only [bpass, h, if_true]
        exact ((ih (a :: t)).cons b).trans (List.Perm.swap a b t)
      · simp only [bpass, h, Bool.false_eq_true, if_false]
        exact (ih (b :: t)).cons a

/-- The bubble sort body permutes its input. -/
theorem bsortAux_perm {α : Type} (lt : α → α → Bool) :
    ∀ (k : Nat) (l : List α), List.Perm (bsortAux lt k l) l := by
  intro k
  induction k with
  | zero => intro l; exact List.Perm.refl l
  | succ k ih =>
    intro l
    exact (ih (bpass lt (k + 1) l)).trans (bpass_perm lt (k + 1) l)

/-- The full bubble sort permutes its input. -/
theorem bubble_sort_perm {α : Type} (lt : α → α → Bool) (l : List α) :
    List.Perm (bubble_sort lt l) l :=
  bsortAux_perm lt (l.length - 1) l

/-- A bubble pass leaves a descending-sorted list unchanged. -/
theorem bpass_sorted_eq {α β : Type} [LinearOrder β] (lt : α → α → Bool)
    (key : α → β) (hlt : ∀ a b, lt a b = true ↔ key a < key b) :
    ∀ (k : Nat) (l : List α), l.Sorted (fun u v => key v ≤ key u) →
      bpass lt k l = l := by
  intro k
  induction k with
  | zero =>
    intro l _
    match l with
    | [] => rfl
    | [a] => rfl
    | a :: b :: t => rfl
  | succ k ih =>
    intro l hl
    match l with
    | [] => rfl
    | [a] => rfl
    | a :: b :: t =>
      have hab : key b ≤ key a :=
        List.rel_of_sorted_cons hl b (by simp)
      have h : ¬ lt a b = true := by
        rw [hlt]
        exact not_lt.mpr hab
      simp only [bpass, h, if_false, Bool.false_eq_true]
      rw [ih (b :: t) hl.of_cons]

/-- The minimum produced by a bubble pass is below everything the pass
moved it past. -/
theorem key_min_of_perm {α β : Type} [LinearOrder β] (key : α → β)
    (a' : List α) (m v : α) (hmin : ∀ u ∈ a', key m ≤ key u)
    (hv : v ∈ a' ++ [m]) : key m ≤ key v := by
  rcases List.mem_append.mp hv with h | h
  · exact hmin v h
  · simp only [List.mem_singleton] at h
    subst h
    exact le_refl _

/-- One bubble pass over `x :: a ++ b` with enough fuel: the pass only
touches the `x :: a` part (the already-sorted, dominated tail `b` is
never entered), carries its running minimum `m` to the boundary, and
leaves everything else a permutation of `x :: a`. -/
theorem bpass_step {α β : Type} [LinearOrder β] (lt : α → α → Bool)
    (key : α → β) (hlt : ∀ a b, lt a b = true ↔ key a < key b) :
    ∀ (k : Nat) (x : α) (a b : List α),
      a.length ≤ k →
      b.Sorted (fun u v => key v ≤ key u) →
      (∀ u ∈ x :: a, ∀ y ∈ b, key y ≤ key u) →
      ∃ a' m, bpass lt k (x :: (a ++ b)) = a' ++ m :: b ∧
        List.Perm (a' ++ [m]) (x :: a) ∧ (∀ u ∈ a', key m ≤ key u) := by
  intro k
  induction k with
  | zero =>
    intro x a b ha hb hab
    have haz : a = [] := List.length_eq_zero.mp (Nat.le_zero.mp ha)
    subst haz
    refine ⟨[], x, ?_, List.Perm.refl _, by simp⟩
    have hsor : (x :: b).Sorted (fun u v => key v ≤ key u) :=
      List.sorted_cons.mpr ⟨fun y hy => hab x (by simp) y hy, hb⟩
    rw [List.nil_append, bpass_sorted_eq lt key hlt 0 (x :: b) hsor, List.nil_append]
  | succ k ih =>
    intro x a b ha hb hab
    cases a with
    | nil =>
      refine ⟨[], x, ?_, List.Perm.refl _, by simp⟩
      have hsor : (x :: b).Sorted (fun u v => key v ≤ key u) :=
        List.sorted_cons.mpr ⟨fun y hy => hab x (by simp) y hy, hb⟩
      rw [List.nil_append, bpass_sorted_eq lt key hlt (k + 1) (x :: b) hsor,
        List.nil_append]
    | cons a0 a1 =>
      have ha1 : a1.length ≤ k := by
        simp only [List.length_cons] at ha
        omega
      by_cases h : lt x a0 = true
      · obtain ⟨a', m, heq, hperm, hmin⟩ := ih x a1 b ha1 hb
          (fun u hu y hy => by
            rcases List.mem_cons.mp hu with rfl | hu2
            · exact hab u (by simp) y hy
            · exact hab u (by simp [hu2]) y hy)
        refine ⟨a0 :: a', m, ?_, ?_, ?_⟩
        · show bpass lt (k + 1) (x :: a0 :: (a1 ++ b)) = (a0 :: a') ++ m :: b
          simp only [bpass, h, if_true]
          rw [heq]
          rfl
        · exact (hperm.cons a0).trans (List.Perm.swap x a0 a1)
        · intro u hu
          rcases List.mem_cons.mp hu with h5 | hu2
          · have hmx : key m ≤ key x :=
              key_min_of_perm key a' m x hmin (hperm.mem_iff.mpr (by simp))
            rw [h5]
            exact hmx.trans (le_of_lt ((hlt x a0).mp h))
          · exact hmin u hu2
      · obtain ⟨a', m, heq, hperm, hmin⟩ := ih a0 a1 b ha1 hb
          (fun u hu y hy => hab u (by simp [List.mem_cons.mp hu]) y hy)
        refine ⟨x :: a', m, ?_, ?_, ?_⟩
        · show bpass lt (k + 1) (x :: a0 :: (a1 ++ b)) = (x :: a') ++ m :: b
          simp only [bpass, h, if_false, Bool.false_eq_true]
          rw [heq]
          rfl
        · exact hperm.cons x
        · intro u hu
          rcases List.mem_cons.mp hu with h5 | hu2
          · have hma : key m ≤ key a0 :=
              key_min_of_perm key a' m a0 hmin (hperm.mem_iff.mpr (by simp))
            have hax : key a0 ≤ key x := not_lt.mp (fun hc => h ((hlt x a0).mpr hc))
            rw [h5]
            exact hma.trans hax
          · exact hmin u hu2

/-- The bubble sort body sorts `a ++ b` in descending key order whenever
it has at least `a.length - 1` passes left, the tail `b` is already
sorted, and `b` is dominated by `a`. -/
theorem bsortAux_sorted {α β : Type} [LinearOrder β] (lt : α → α → Bool)
    (key : α → β) (hlt : ∀ a b, lt a b = true ↔ key a < key b) :
    ∀ (k : Nat) (a b : List α),
      a.length ≤ k + 1 →
      b.Sorted (fun u v => key v ≤ key u) →
      (∀ u ∈ a, ∀ y ∈ b, key y ≤ key u) →
      (bsortAux lt k (a ++ b)).Sorted (fun u v => key v ≤ key u) := by
  intro k
  induction k with
  | zero =>
    intro a b ha hb hab
    match a, ha with
    | [], _ => simpa using hb
    | [x], _ =>
      exact List.sorted_cons.mpr ⟨fun y hy => hab x (by simp) y hy, hb⟩
    | x :: y :: t, ha => simp only [List.length_cons] at ha; omega
  | succ k ih =>
    intro a b ha hb hab
    show (bsortAux lt k (bpass lt (k + 1) (a ++ b))).Sorted _
    cases a with
    | nil =>
      rw [List.nil_append, bpass_sorted_eq lt key hlt (k + 1) b hb]
      have := ih [] b (by simp) hb (by simp)
      simpa using this
    | cons x a2 =>
      have ha2 : a2.length ≤ k + 1 := by
        simp only [List.length_cons] at ha
        omega
      obtain ⟨a', m, heq, hperm, hmin⟩ := bpass_step lt key hlt (k + 1) x a2 b
        ha2 hb hab
      rw [show (x :: a2) ++ b = x :: (a2 ++ b) from rfl, heq]
      have hm_mem : m ∈ x :: a2 := hperm.mem_iff.mp (by simp)
      have hb' : (m :: b).Sorted (fun u v => key v ≤ key u) :=
        List.sorted_cons.mpr ⟨fun y hy => hab m hm_mem y hy, hb⟩
      have ha' : a'.length ≤ k + 1 := by
        have hl := hperm.length_eq
        simp only [List.length_append, List.length_singleton, List.length_cons] at hl
        omega
      have hab' : ∀ u ∈ a', ∀ y ∈ m :: b, key y ≤ key u := by
        intro u hu y hy
        have hu2 : u ∈ x :: a2 := hperm.mem_iff.mp (List.mem_append_left _ hu)
        rcases List.mem_cons.mp hy with rfl | hy2
        · exact hmin u hu
        · exact hab u hu2 y hy2
      exact ih a' (m :: b) ha' hb' hab'

/-- The full bubble sort sorts in descending key order. -/
theorem bubble_sort_sorted {α β : Type} [LinearOrder β] (lt : α → α → Bool)
    (key : α → β) (hlt : ∀ a b, lt a b = true ↔ key a < key b) (l : List α) :
    (bubble_sort lt l).Sorted (fun u v => key v ≤ key u) := by
  have h := bsortAux_sorted lt key hlt (l.length - 1) l [] (by omega)
    List.sorted_nil (by simp)
  simpa using h

/-- The battle swap condition is the strict lexicographic comparison of
the (lives, eliminated-at, score) key. -/
theorem swap_needed_battle_iff (a b : SessionPlayer) :
    swap_needed .battle a b = true ↔ battle_key a < battle_key b := by
  simp only [swap_needed, battle_key]
  rw [Prod.Lex.lt_iff, Prod.Lex.lt_iff]
  by_cases h1 : a.lives < b.lives
  · simp [h1]
  · by_cases h2 : a.lives = b.lives
    · by_cases h3 : a.eliminated_at < b.eliminated_at
      · simp [h1, h2, h3]
      · by_cases h4 : a.eliminated_at = b.eliminated_at
        · simp [h1, h2, h3, h4]
        · simp [h1, h2, h3, h4]
    · simp [h1, h2]

/-- The solo swap condition is the strict comparison of scores. -/
theorem swap_needed_solo_iff (a b : SessionPlayer) :
    swap_needed .solo a b = true ↔ a.score < b.score := by
  simp [swap_needed]

/-- The descending battle key order is the spec's explicit three-level
ordering. -/
theorem battle_key_le_iff (u v : SessionPlayer) :
    battle_key v ≤ battle_key u ↔ battle_rank_ge u v := by
  simp [battle_key, battle_rank_ge, Prod.Lex.le_iff, Prod.Lex.lt_iff]

/-- Claim C5: the `session/finished` ranking is a permutation of the
session's players sorted, in solo mode, by score descending and, in
battle mode, by lives descending, then eliminated-at descending, then
score descending; in battle mode the reported winner is the top-ranked
player of that ordering. -/
theorem C5_final_ranking (s : Session) :
    List.Perm (end_session_ranking s) s.players ∧
    (s.mode = .solo → (end_session_ranking s).Sorted solo_rank_ge) ∧
    (s.mode = .battle → (end_session_ranking s).Sorted battle_rank_ge) ∧
    (s.mode = .battle → (end_session_broadcast s).winner =
      (end_session_ranking s).head?.map (fun p => p.pseudo)) := by
  refine ⟨bubble_sort_perm _ s.players, ?_, ?_, ?_⟩
  · intro hm
    have h := bubble_sort_sorted (swap_needed s.mode)
      (fun p => p.score) (fun a b => by rw [hm]; exact swap_needed_solo_iff a b)
      s.players
    exact h
  · intro hm
    have h := bubble_sort_sorted (swap_needed s.mode) battle_key
      (fun a b => by rw [hm]; exact swap_needed_battle_iff a b) s.players
    exact h.imp (fun hk => (battle_key_le_iff _ _).mp hk)
  · intro hm
    simp [end_session_broadcast, hm]

/-- For QCM and boolean questions the penalty loop treats an answered
player whose recorded answer differs from the stored correct one as a
life loss, with elimination at 0 lives or below. -/
theorem penalty_step_incorrect (q : Question) (qnum : Int) (p : SessionPlayer)
    (hk : q.qtype = .qcm ∨ q.qtype = .boolean)
    (he : p.eliminated = false) (hs : p.used_skip_this_question = false)
    (ha : p.has_answered = true) (hne : p.current_answer ≠ q.correct_answer) :
    penalty_step q qnum p =
      if p.lives - 1 ≤ 0 then
        { p with lives := p.lives - 1, eliminated := true, eliminated_at := qnum }
      else { p with lives := p.lives - 1 } := by
  have hrc : results_correct q p = false := by
    rcases hk with hk | hk <;> simp [results_correct, hk, hne]
  simp [penalty_step, he, hs, ha, hrc]

/-- For text questions the penalty loop never touches a player: any
answered player counts as correct there, and non-answerers are exempt. -/
theorem penalty_step_text (q : Question) (qnum : Int) (hq : q.qtype = .text)
    (p : SessionPlayer) : penalty_step q qnum p = p := by
  simp [penalty_step, results_correct, hq]

/-- For text questions the last-player penalty never fires. -/
theorem apply_last_penalty_text (q : Question) (qnum : Int)
    (hq : q.qtype = .text) (players : List SessionPlayer) (idx : Int) :
    apply_last_penalty q qnum players idx = players := by
  unfold apply_last_penalty
  split
  · rfl
  · cases hg : players.get? idx.toNat with
    | none => rfl
    | some last =>
      split
      · rfl
      · simp [hq]

/-- The last-player penalty leaves every player whose recorded answer is
not the correct one untouched (for QCM and boolean questions): it only
ever modifies a correctly-answering slowest player. -/
theorem apply_last_penalty_get_of_ne (q : Question) (qnum : Int)
    (hk : q.qtype = .qcm ∨ q.qtype = .boolean)
    (players : List SessionPlayer) (idx : Int) (i : Nat) (p1 : SessionPlayer)
    (hget : players.get? i = some p1)
    (hne : p1.current_answer ≠ q.correct_answer) :
    (apply_last_penalty q qnum players idx).get? i = some p1 := by
  unfold apply_last_penalty
  rw [List.get?_eq_getElem?] at hget
  rw [List.get?_eq_getElem?]
  split
  · exact hget
  · cases hg : players.get? idx.toNat with
    | none => exact hget
    | some last =>
      rw [List.get?_eq_getElem?] at hg
      by_cases helim : last.eliminated = true
      · simp [helim, hget]
      · by_cases hwc : (last.current_answer == q.correct_answer) = true
        · have hidx : idx.toNat ≠ i := by
            intro hcontra
            rw [hcontra, hget] at hg
            cases hg
            exact hne (beq_iff_eq.mp hwc)
          rcases hk with hk2 | hk2 <;>
            simp [helim, hk2, hwc, List.getElem?_set_ne hidx, hget]
        · rcases hk with hk2 | hk2 <;> simp [helim, hk2, hwc, hget]

/-- Claim C1 (amended): in a battle-mode results phase, for multi-choice
and boolean questions every non-eliminated player who answered without
skipping and whose recorded answer differs from the correct one loses
exactly one life, and is marked eliminated with eliminated-at = current
question number + 1 exactly when the lives drop to 0 or below; for text
questions, however, the results phase changes no player at all — an
answered-but-wrong text player keeps all lives (the loop counts every
answered text player as correct). -/
theorem C1_battle_penalty (q : Question) (s : Session)
    (hmode : s.mode = .battle) :
    (∀ hk : q.qtype = .qcm ∨ q.qtype = .boolean,
      ∀ i p, s.players.get? i = some p →
        p.eliminated = false → p.used_skip_this_question = false →
        p.has_answered = true → p.current_answer ≠ q.correct_answer →
        ∃ p', (battle_results_update q s).players.get? i = some p' ∧
          p'.lives = p.lives - 1 ∧
          p'.eliminated = decide (p.lives - 1 ≤ 0) ∧
          (p.lives - 1 ≤ 0 → p'.eliminated_at = s.current_question + 1)) ∧
    (q.qtype = .text → (battle_results_update q s).players = s.players) := by
  constructor
  · intro hk i p hget he hs ha hne
    have hpen := penalty_step_incorrect q (s.current_question + 1) p hk he hs ha hne
    have hmap : (s.players.map (penalty_step q (s.current_question + 1))).get? i =
        some (penalty_step q (s.current_question + 1) p) := by
      rw [List.get?_map, hget]
      rfl
    have hne1 : (penalty_step q (s.current_question + 1) p).current_answer ≠
        q.correct_answer := by
      rw [hpen]
      split <;> exact hne
    have hfinal := apply_last_penalty_get_of_ne q (s.current_question + 1) hk
      (s.players.map (penalty_step q (s.current_question + 1)))
      (find_slowest s.players) i _ hmap hne1
    refine ⟨penalty_step q (s.current_question + 1) p, ?_, ?_, ?_, ?_⟩
    · show (battle_results_update q s).players.get? i = _
      unfold battle_results_update
      rw [if_pos hmode]
      exact hfinal
    · rw [hpen]
      split <;> rfl
    · rw [hpen]
      split
      · simp_all
      · simp_all
    · intro hle
      rw [hpen, if_pos hle]
  · intro hq
    unfold battle_results_update
    rw [if_pos hmode]
    show apply_last_penalty q (s.current_question + 1)
      (s.players.map (penalty_step q (s.current_question + 1)))
      (find_slowest s.players) = s.players
    rw [apply_last_penalty_text q _ hq,
      List.map_congr_left (fun p _ => penalty_step_text q _ hq p)]
    exact List.map_id s.players

/-- Claim C1 counterexample: on the text question, alice answers lyon
(wrong: was-correct ends up false, has-answered true, no skip, not
eliminated), yet the battle results phase leaves her at 3 lives instead
of the 2 the claim demands. -/
theorem C1_counterexample :
    (((process_answer [textQ] battleTextSession 1 (-1) lyonBytes false 3 101).1.players.get? 0).map
        (fun p => (p.has_answered, p.was_correct, p.used_skip_this_question,
          p.eliminated, p.lives))) = some (true, false, false, false, 3) ∧
    (((battle_results_update textQ
        (process_answer [textQ] battleTextSession 1 (-1) lyonBytes false 3 101).1).players.get? 0).map
      (fun p => p.lives)) = some 3 ∧ (3 : Int) ≠ 3 - 1 := by
  refine ⟨rfl, rfl, by decide⟩

/-- Claim C1 witness: on the QCM question alice answers option 0 (wrong,
correct is 2) and drops from 3 lives to 2, not eliminated. -/
theorem C1_witness :
    ∃ p', (battle_results_update qcmQ
        (process_answer [qcmQ] battleQcmSession 1 0 [] false 3 101).1).players.get? 0 =
          some p' ∧
      p'.lives = 2 ∧ p'.eliminated = false := by
  have h := (C1_battle_penalty qcmQ
    (process_answer [qcmQ] battleQcmSession 1 0 [] false 3 101).1 (by rfl)).1
    (Or.inl rfl) 0
    ((process_answer [qcmQ] battleQcmSession 1 0 [] false 3 101).1.players.headD
      (init_player 0 "" 0))
    (by rfl) (by rfl) (by rfl) (by rfl) (by decide)
  obtain ⟨p', hp', hl, helim, _⟩ := h
  exact ⟨p', hp', by rw [hl]; rfl, by rw [helim]; rfl⟩

/-- For QCM and boolean questions the penalty loop leaves a player whose
recorded answer matches the correct one untouched. -/
theorem penalty_step_correct (q : Question) (qnum : Int) (p : SessionPlayer)
    (hk : q.qtype = .qcm ∨ q.qtype = .boolean)
    (hc : p.current_answer = q.correct_answer) :
    penalty_step q qnum p = p := by
  have hrc : results_correct q p = true := by
    rcases hk with hk | hk <;> simp [results_correct, hk, hc]
  simp [penalty_step, hrc]

/-- Invariants of the running-maximum scan: the accumulator maximum only
grows, bounds every eligible response time seen, and the final index is
either the initial one (nothing beat the maximum) or points at an
eligible player holding the final maximum whom no earlier eligible
player matches. -/
theorem find_slowest_aux_spec :
    ∀ (rest : List SessionPlayer) (i : Nat) (mx : ℚ) (idx : Int),
      mx ≤ (find_slowest_aux rest i (mx, idx)).1 ∧
      (∀ j p, rest.get? j = some p → slowest_eligible p = true →
        p.response_time ≤ (find_slowest_aux rest i (mx, idx)).1) ∧
      (((find_slowest_aux rest i (mx, idx)).1 = mx ∧
          (find_slowest_aux rest i (mx, idx)).2 = idx) ∨
        ∃ j p, rest.get? j = some p ∧
          (find_slowest_aux rest i (mx, idx)).2 = (i : Int) + j ∧
          slowest_eligible p = true ∧
          p.response_time = (find_slowest_aux rest i (mx, idx)).1 ∧
          mx < (find_slowest_aux rest i (mx, idx)).1 ∧
          (∀ j2 p2, j2 < j → rest.get? j2 = some p2 →
            slowest_eligible p2 = true →
            p2.response_time < (find_slowest_aux rest i (mx, idx)).1)) := by
  intro rest
  induction rest with
  | nil =>
    intro i mx idx
    refine ⟨le_refl mx, ?_, Or.inl ⟨rfl, rfl⟩⟩
    intro j p hj
    simp at hj
  | cons p rest ih =>
    intro i mx idx
    by_cases hc : (slowest_eligible p && decide (mx < p.response_time)) = true
    · have hstep : find_slowest_aux (p :: rest) i (mx, idx) =
          find_slowest_aux rest (i + 1) (p.response_time, (i : Int)) := by
        simp only [find_slowest_aux]
        rw [if_pos hc]
      have hc2 := hc
      rw [Bool.and_eq_true] at hc2
      have hel : slowest_eligible p = true := hc2.1
      have hmx : mx < p.response_time := of_decide_eq_true hc2.2
      obtain ⟨ihA, ihB, ihC⟩ := ih (i + 1) p.response_time (i : Int)
      rw [hstep]
      refine ⟨le_of_lt (lt_of_lt_of_le hmx ihA), ?_, ?_⟩
      · intro j p2 hj helig
        cases j with
        | zero =>
          have hp2 : p = p2 := by simpa using hj
          rw [← hp2]
          exact ihA
        | succ j => exact ihB j p2 hj helig
      · rcases ihC with ⟨h1, h2⟩ | ⟨j, p2, hget, hidx2, helig2, hrt2, hlt2, hearly⟩
        · refine Or.inr ⟨0, p, rfl, by rw [h2]; simp, hel, by rw [h1], ?_, ?_⟩
          · rw [h1]
            exact hmx
          · intro j2 p2 hj2 _ _
            omega
        · refine Or.inr ⟨j + 1, p2, hget, by rw [hidx2]; push_cast; ring, helig2,
            hrt2, hmx.trans hlt2, ?_⟩
          intro j2 p3 hj2 hget2 helig3
          cases j2 with
          | zero =>
            have hp3 : p = p3 := by simpa using hget2
            rw [← hp3]
            exact hlt2
          | succ j2 => exact hearly j2 p3 (by omega) hget2 helig3
    · have hstep : find_slowest_aux (p :: rest) i (mx, idx) =
          find_slowest_aux rest (i + 1) (mx, idx) := by
        simp only [find_slowest_aux]
        rw [if_neg hc]
      obtain ⟨ihA, ihB, ihC⟩ := ih (i + 1) mx idx
      rw [hstep]
      refine ⟨ihA, ?_, ?_⟩
      · intro j p2 hj helig
        cases j with
        | zero =>
          have hp2 : p = p2 := by simpa using hj
          have hle : p.response_time ≤ mx := by
            by_contra hgt
            exact hc (by simp [← hp2] at helig ⊢; exact ⟨helig, lt_of_not_le hgt⟩)
          rw [← hp2]
          exact hle.trans ihA
        | succ j => exact ihB j p2 hj helig
      · rcases ihC with ⟨h1, h2⟩ | ⟨j, p2, hget, hidx2, helig2, hrt2, hlt2, hearly⟩
        · exact Or.inl ⟨h1, h2⟩
        · refine Or.inr ⟨j + 1, p2, hget, by rw [hidx2]; push_cast; ring, helig2,
            hrt2, hlt2, ?_⟩
          intro j2 p3 hj2 hget2 helig3
          cases j2 with
          | zero =>
            have hp3 : p = p3 := by simpa using hget2
            have hle : p.response_time ≤ mx := by
              by_contra hgt
              exact hc (by simp [← hp3] at helig3 ⊢; exact ⟨helig3, lt_of_not_le hgt⟩)
            rw [← hp3]
            exact lt_of_le_of_lt hle hlt2
          | succ j2 => exact hearly j2 p3 (by omega) hget2 helig3

/-- The slowest-player scan of `send_question_results`: when it returns
-1 every eligible answerer had a nonpositive response time; when it
returns an index, that player is an eligible answerer with positive
response time, no eligible answerer is slower, and every earlier
eligible answerer is strictly faster (ties go to the lowest index). -/
theorem find_slowest_spec (players : List SessionPlayer) :
    (find_slowest players = -1 →
      ∀ j p, players.get? j = some p → slowest_eligible p = true →
        p.response_time ≤ 0) ∧
    (∀ j : Nat, find_slowest players = (j : Int) →
      ∃ p, players.get? j = some p ∧ slowest_eligible p = true ∧
        0 < p.response_time ∧
        (∀ j2 p2, players.get? j2 = some p2 → slowest_eligible p2 = true →
          p2.response_time ≤ p.response_time) ∧
        (∀ j2 p2, j2 < j → players.get? j2 = some p2 →
          slowest_eligible p2 = true →
          p2.response_time < p.response_time)) := by
  obtain ⟨hA, hB, hC⟩ := find_slowest_aux_spec players 0 0 (-1)
  constructor
  · intro hneg j p hj helig
    rcases hC with ⟨h1, _⟩ | ⟨j2, p2, _, hidx2, _, _, _, _⟩
    · have := hB j p hj helig
      rw [h1] at this
      exact this
    · rw [show find_slowest players = (find_slowest_aux players 0 (0, -1)).2
        from rfl] at hneg
      omega
  · intro j hj
    rcases hC with ⟨_, h2⟩ | ⟨j2, p2, hget, hidx2, helig2, hrt2, hlt2, hearly⟩
    · rw [show find_slowest players = (find_slowest_aux players 0 (0, -1)).2
        from rfl] at hj
      omega
    · rw [show find_slowest players = (find_slowest_aux players 0 (0, -1)).2
        from rfl] at hj
      have hjj : j = j2 := by omega
      subst hjj
      refine ⟨p2, hget, helig2, ?_, ?_, ?_⟩
      · rw [hrt2]
        exact hlt2
      · intro j3 p3 hj3 helig3
        rw [hrt2]
        exact hB j3 p3 hj3 helig3
      · intro j3 p3 hlt3 hj3 helig3
        rw [hrt2]
        exact hearly j3 p3 hlt3 hj3 helig3

/-- When the slowest index holds a non-eliminated player counted correct,
the last-player penalty decrements that player with the elimination
check. -/
theorem apply_last_penalty_hit (q : Question) (qnum : Int)
    (players : List SessionPlayer) (j : Nat) (last : SessionPlayer)
    (hmap : players.get? j = some last)
    (hlen : j < players.length)
    (helim : last.eliminated = false)
    (hwc : (match q.qtype with
      | QuestionType.qcm => last.current_answer == q.correct_answer
      | QuestionType.boolean => last.current_answer == q.correct_answer
      | QuestionType.text => false) = true) :
    (apply_last_penalty q qnum players (j : Int)).get? j =
      some (if last.lives - 1 ≤ 0 then { last with lives := last.lives - 1, eliminated := true, eliminated_at := qnum } else { last with lives := last.lives - 1 }) := by
  unfold apply_last_penalty
  rw [if_neg (by omega : ¬ (j : Int) < 0), Int.toNat_ofNat]
  simp only [hmap]
  rw [if_neg (by simp [helim])]
  simp only [hwc]
  rw [if_pos trivial]
  rw [List.get?_eq_getElem?, List.getElem?_set_self hlen]

/-- Claim C4 (amended): in a battle results phase the slowest player is
the eligible answerer (not eliminated at loop entry, no skip, answered)
with the highest response time, ties broken by lowest index, provided
that highest response time is positive (with all response times ≤ 0 no
slowest player is identified); if that slowest player answered correctly
and the question is multi-choice or boolean, they lose one additional
life with the usual elimination check; for a text question the results
phase never applies this penalty (nor any other). -/
theorem C4_last_player_penalty (q : Question) (s : Session)
    (hmode : s.mode = .battle) :
    (∀ j : Nat, find_slowest s.players = (j : Int) →
      ∃ p, s.players.get? j = some p ∧ slowest_eligible p = true ∧
        0 < p.response_time ∧
        (∀ j2 p2, s.players.get? j2 = some p2 → slowest_eligible p2 = true →
          p2.response_time ≤ p.response_time) ∧
        (∀ j2 p2, j2 < j → s.players.get? j2 = some p2 →
          slowest_eligible p2 = true →
          p2.response_time < p.response_time)) ∧
    (find_slowest s.players = -1 →
      ∀ j p, s.players.get? j = some p → slowest_eligible p = true →
        p.response_time ≤ 0) ∧
    (∀ j : Nat, find_slowest s.players = (j : Int) →
      (q.qtype = .qcm ∨ q.qtype = .boolean) →
      ∀ p, s.players.get? j = some p →
        p.eliminated = false → p.used_skip_this_question = false →
        p.current_answer = q.correct_answer →
        ∃ p', (battle_results_update q s).players.get? j = some p' ∧
          p'.lives = p.lives - 1 ∧
          p'.eliminated = decide (p.lives - 1 ≤ 0) ∧
          (p.lives - 1 ≤ 0 → p'.eliminated_at = s.current_question + 1)) ∧
    (q.qtype = .text → (battle_results_update q s).players = s.players) := by
  refine ⟨(find_slowest_spec s.players).2, (find_slowest_spec s.players).1, ?_, ?_⟩
  · intro j hj hk p hget he hs hc
    have hpen : penalty_step q (s.current_question + 1) p = p :=
      penalty_step_correct q _ p hk hc
    have hmap : (s.players.map (penalty_step q (s.current_question + 1))).get? j =
        some p := by
      rw [List.get?_map, hget]
      simp [hpen]
    have hlen : j < (s.players.map (penalty_step q (s.current_question + 1))).length := by
      have hmap2 := hmap
      rw [List.get?_eq_getElem?] at hmap2
      exact (List.getElem?_eq_some_iff.mp hmap2).1
    have hwc : (match q.qtype with
        | QuestionType.qcm => p.current_answer == q.correct_answer
        | QuestionType.boolean => p.current_answer == q.correct_answer
        | QuestionType.text => false) = true := by
      rcases hk with hk | hk <;> simp [hk, hc]
    refine ⟨if p.lives - 1 ≤ 0 then { p with lives := p.lives - 1, eliminated := true, eliminated_at := s.current_question + 1 } else { p with lives := p.lives - 1 }, ?_, ?_, ?_, ?_⟩
    · unfold battle_results_update
      rw [if_pos hmode]
      show (apply_last_penalty q (s.current_question + 1)
        (s.players.map (penalty_step q (s.current_question + 1)))
        (find_slowest s.players)).get? j = _
      rw [hj]
      exact apply_last_penalty_hit q (s.current_question + 1) _ j p hmap hlen he hwc
    · split <;> rfl
    · split
      · simp_all
      · simp_all
    · intro hle
      rw [if_pos hle]
  · intro hq
    unfold battle_results_update
    rw [if_pos hmode]
    show apply_last_penalty q (s.current_question + 1)
      (s.players.map (penalty_step q (s.current_question + 1)))
      (find_slowest s.players) = s.players
    rw [apply_last_penalty_text q _ hq,
      List.map_congr_left (fun p _ => penalty_step_text q _ hq p)]
    exact List.map_id s.players

/-- Claim C4 counterexample: on the text question alice answers paris
correctly in 2 s and bob answers paris correctly in 5 s; bob is the
slowest (index 1) and answered correctly, yet keeps 3 lives — the
last-player penalty never fires for text questions. -/
theorem C4_counterexample :
    (((process_answer [textQ]
          (process_answer [textQ] battleTextSession 1 (-1) parisBytes false 2 101).1
          2 (-1) parisBytes false 5 101).1.players.get? 1).map
        (fun p => (p.has_answered, p.was_correct, p.used_skip_this_question,
          p.response_time))) = some (true, true, false, 5) ∧
    find_slowest (process_answer [textQ]
        (process_answer [textQ] battleTextSession 1 (-1) parisBytes false 2 101).1
        2 (-1) parisBytes false 5 101).1.players = 1 ∧
    (((battle_results_update textQ
        (process_answer [textQ]
          (process_answer [textQ] battleTextSession 1 (-1) parisBytes false 2 101).1
          2 (-1) parisBytes false 5 101).1).players.get? 1).map
      (fun p => p.lives)) = some 3 ∧ (3 : Int) ≠ 3 - 1 := by
  refine ⟨rfl, rfl, rfl, by decide⟩

/-- Claim C4 witness: on the QCM question alice answers correctly in 5 s
and bob incorrectly in 2 s; alice is the slowest and correct, so she
drops to 2 lives. -/
theorem C4_witness :
    ∃ p', (battle_results_update qcmQ
        (process_answer [qcmQ]
          (process_answer [qcmQ] battleQcmSession 1 2 [] false 5 101).1
          2 0 [] false 2 101).1).players.get? 0 = some p' ∧
      p'.lives = 2 ∧ p'.eliminated = false := by
  have h := (C4_last_player_penalty qcmQ
    (process_answer [qcmQ]
      (process_answer [qcmQ] battleQcmSession 1 2 [] false 5 101).1
      2 0 [] false 2 101).1 (by rfl)).2.2.1 0 (by rfl) (Or.inl rfl)
    ((process_answer [qcmQ]
      (process_answer [qcmQ] battleQcmSession 1 2 [] false 5 101).1
      2 0 [] false 2 101).1.players.headD (init_player 0 "" 0))
    (by rfl) (by rfl) (by rfl) (by rfl)
  obtain ⟨p', hp', hl, helim, _⟩ := h
  exact ⟨p', hp', by rw [hl]; rfl, by rw [helim]; rfl⟩

/-- Claim C5 witness: in the concrete battle roster the ranking is
carol (2 lives, 9 points), then bob (2 lives, 5 points), then the
eliminated alice; carol is the winner. -/
theorem C5_witness :
    List.Perm (end_session_ranking rankSession) rankSession.players ∧
    (end_session_ranking rankSession).Sorted battle_rank_ge ∧
    (end_session_broadcast rankSession).winner = some "carol" := by
  have h := C5_final_ranking rankSession
  refine ⟨h.1, h.2.2.1 (by rfl), ?_⟩
  rw [h.2.2.2 (by rfl)]
  rfl

/-- When fewer questions match the requested difficulty and themes than
the session needs, `create_session` fails and leaves the state with no
new session: the session count is unchanged and every slot is either
untouched or zeroed. -/
theorem create_session_insufficient (shuffle : List Int → List Int)
    (st : ServerSt) (name : String) (theme_ids : List Int)
    (difficulty : Difficulty) (nbQ tLim : Int) (mode : GameMode)
    (lives maxP cid : Int)
    (hins : ((st.questions.filter (fun qq => qq.difficulty == difficulty &&
        qq.theme_ids.any (fun t => theme_ids.contains t))).length : Int) < nbQ) :
    (create_session shuffle st name theme_ids difficulty nbQ tLim mode
        lives maxP cid).1 = none ∧
    (create_session shuffle st name theme_ids difficulty nbQ tLim mode
        lives maxP cid).2.num_sessions = st.num_sessions ∧
    ∀ k, (create_session shuffle st name theme_ids difficulty nbQ tLim mode
        lives maxP cid).2.sessions.get? k = st.sessions.get? k ∨
      (create_session shuffle st name theme_ids difficulty nbQ tLim mode
        lives maxP cid).2.sessions.get? k = some empty_session := by
  unfold create_session
  split
  · exact ⟨rfl, rfl, fun k => Or.inl rfl⟩
  · cases hslot : find_slot st.sessions with
    | none => exact ⟨rfl, rfl, fun k => Or.inl rfl⟩
    | some i =>
      simp only [hslot]
      have hsel : ∀ s0 : Session, s0.difficulty = difficulty →
          s0.theme_ids = theme_ids → s0.num_questions = nbQ →
          select_questions st.questions s0 shuffle = none := by
        intro s0 h1 h2 h3
        unfold select_questions
        have heq : List.filter (question_matches s0) st.questions =
            List.filter (fun qq => qq.difficulty == difficulty &&
              qq.theme_ids.any (fun t => theme_ids.contains t)) st.questions :=
          List.filter_congr (fun q _ => by simp [question_matches, h1, h2])
        rw [if_pos (by rw [heq, h3]; exact hins)]
      rw [hsel _ rfl rfl rfl]
      refine ⟨rfl, rfl, fun k => ?_⟩
      by_cases hk : i = k
      · subst hk
        cases hoi : st.sessions.get? i with
        | none =>
          left
          rw [List.get?_eq_getElem?] at hoi ⊢
          have hlen : st.sessions.length ≤ i := by
            by_contra hlt
            rw [List.getElem?_eq_some_iff.mpr ⟨by omega, rfl⟩] at hoi
            · cases hoi
          rw [List.set_eq_of_length_le hlen]
          exact hoi
        | some sold =>
          right
          rw [List.get?_eq_getElem?] at hoi ⊢
          have hlen : i < st.sessions.length := (List.getElem?_eq_some_iff.mp hoi).1
          exact List.getElem?_set_self hlen
      · left
        rw [List.get?_eq_getElem?, List.get?_eq_getElem?]
        exact List.getElem?_set_ne hk

/-- Claim C8: a `session/create` request with nbQuestions outside
[10, 50], timeLimit outside [10, 60], or maxPlayers < 2 is answered with
statut 400; in battle mode a missing or out-of-[1, 10] lives field is
answered with statut 400; and when fewer questions match the requested
theme/difficulty combination than nbQuestions, the response is 400 and
no session is created — the session count is unchanged and each slot is
untouched or freed. -/
theorem C8_create_validation (shuffle : List Int → List Int) (st : ServerSt)
    (cid : Int) (pseudo : String) (req : CreateRequest)
    (name : String) (themeIds : List Int) (diffStr : String)
    (nbQ tLim maxP : Int) (modeStr : String)
    (hname : req.name = some name) (hth : req.themeIds = some themeIds)
    (hdiff : req.difficulty = some diffStr) (hnq : req.nbQuestions = some nbQ)
    (htl : req.timeLimit = some tLim) (hmodef : req.mode = some modeStr)
    (hmp : req.maxPlayers = some maxP) :
    ((nbQ < 10 ∨ 50 < nbQ ∨ tLim < 10 ∨ 60 < tLim ∨ maxP < 2) →
      (handle_create_session shuffle st true cid pseudo req).1.statut = "400") ∧
    (modeStr = "battle" →
      (req.lives = none ∨ ∃ l, req.lives = some l ∧ (l < 1 ∨ 10 < l)) →
      (handle_create_session shuffle st true cid pseudo req).1.statut = "400") ∧
    (((st.questions.filter (fun qq =>
          qq.difficulty == string_to_difficulty diffStr &&
          qq.theme_ids.any (fun t => (themeIds.take 20).contains t))).length : Int)
        < nbQ →
      (handle_create_session shuffle st true cid pseudo req).1.statut = "400" ∧
      (handle_create_session shuffle st true cid pseudo req).2.num_sessions =
        st.num_sessions ∧
      ∀ k, (handle_create_session shuffle st true cid pseudo req).2.sessions.get? k =
          st.sessions.get? k ∨
        (handle_create_session shuffle st true cid pseudo req).2.sessions.get? k =
          some empty_session) := by
  refine ⟨?_, ?_, ?_⟩
  · intro hrange
    unfold handle_create_session
    rw [hname, hth, hdiff, hnq, htl, hmodef, hmp]
    simp only [Bool.not_true, Bool.false_eq_true, if_false]
    cases battle_lives_check modeStr req.lives with
    | none => rfl
    | some l =>
      dsimp only
      rw [if_pos hrange]
  · intro hb hl
    unfold handle_create_session
    rw [hname, hth, hdiff, hnq, htl, hmodef, hmp]
    simp only [Bool.not_true, Bool.false_eq_true, if_false]
    have hlc : battle_lives_check modeStr req.lives = none := by
      unfold battle_lives_check
      rw [if_pos (by rw [hb]; rfl)]
      rcases hl with hl | ⟨l, hl, hrange⟩
      · rw [hl]
      · rw [hl]
        simp only [if_pos hrange]
    rw [hlc]
  · intro hins
    unfold handle_create_session
    rw [hname, hth, hdiff, hnq, htl, hmodef, hmp]
    simp only [Bool.not_true, Bool.false_eq_true, if_false]
    cases battle_lives_check modeStr req.lives with
    | none => exact ⟨rfl, rfl, fun k => Or.inl rfl⟩
    | some l =>
      dsimp only
      by_cases hrange : nbQ < 10 ∨ 50 < nbQ ∨ tLim < 10 ∨ 60 < tLim ∨ maxP < 2
      · rw [if_pos hrange]
        exact ⟨rfl, rfl, fun k => Or.inl rfl⟩
      · rw [if_neg hrange]
        obtain ⟨h1, h2, h3⟩ := create_session_insufficient shuffle st name
          (themeIds.take 20) (string_to_difficulty diffStr) nbQ tLim
          (string_to_mode modeStr) l maxP cid hins
        cases hcr : create_session shuffle st name (themeIds.take 20)
            (string_to_difficulty diffStr) nbQ tLim (string_to_mode modeStr)
            l maxP cid with
        | mk fst snd =>
          rw [hcr] at h1 h2 h3
          cases fst with
          | none => exact ⟨rfl, h2, h3⟩
          | some pr => cases h1

/-- Claim C8 witness: a create request asking for only 5 questions is
rejected with 400 on the empty server state, which is left unchanged. -/
theorem C8_witness :
    (handle_create_session idShuffle emptySt true 1 "alice" badCreateReq).1.statut =
      "400" ∧
    (handle_create_session idShuffle emptySt true 1 "alice" badCreateReq).2.num_sessions =
      emptySt.num_sessions := by
  have h := C8_create_validation idShuffle emptySt 1 "alice" badCreateReq
    "s" [0] "easy" 5 20 4 "solo" rfl rfl rfl rfl rfl rfl rfl
  refine ⟨h.1 (by omega), ?_⟩
  exact (h.2.2 (by decide)).2.1

/-- A successful `get_current_question` lookup agrees with the direct
question-id lookup `handle_joker` performs. -/
theorem get_current_question_lookup (questions : List Question) (s : Session)
    (q : Question) (h : get_current_question questions s = some q) :
    (match s.question_ids.get? s.current_question.toNat with
      | none => none
      | some qid => questions.find? (fun qq => qq.id == qid)) = some q := by
  unfold get_current_question at h
  split at h
  · cases h
  · exact h

/-- For a correct-option index in [0, 4) there are exactly three wrong
option indices. -/
theorem wrong_length_three (c : Int) (hc0 : 0 ≤ c) (hc1 : c < 4) :
    (([0, 1, 2, 3] : List Int).filter (fun i => i != c)).length = 3 := by
  have hcc : c = 0 ∨ c = 1 ∨ c = 2 ∨ c = 3 := by omega
  rcases hcc with rfl | rfl | rfl | rfl <;> decide

/-- Removing two (distinct, shuffled) wrong option indices from 0..3
leaves exactly the correct index and one wrong index. -/
theorem fifty_remaining_spec (c x y z : Int)
    (hperm : List.Perm [x, y, z]
      (([0, 1, 2, 3] : List Int).filter (fun i => i != c)))
    (hc0 : 0 ≤ c) (hc1 : c < 4) :
    ∃ w, w ≠ c ∧ 0 ≤ w ∧ w < 4 ∧
      List.Perm (fifty_remaining_indices x y) [c, w] := by
  have hW : ∀ u : Int, u ∈ ([x, y, z] : List Int) ↔
      (u ∈ ([0, 1, 2, 3] : List Int) ∧ u ≠ c) := by
    intro u
    rw [hperm.mem_iff]
    simp [List.mem_filter]
  have hx := (hW x).mp (by simp)
  have hy := (hW y).mp (by simp)
  have hz := (hW z).mp (by simp)
  have hnd : ([x, y, z] : List Int).Nodup := by
    rw [hperm.nodup_iff]
    apply List.Nodup.filter
    decide
  have hnd2 : x ≠ y ∧ x ≠ z ∧ y ≠ z := by
    simp only [List.nodup_cons, List.mem_cons, List.mem_singleton,
      List.not_mem_nil, or_false, not_or, List.nodup_nil, and_true] at hnd
    exact ⟨hnd.1.1, hnd.1.2, hnd.2.1⟩
  have hfilter : fifty_remaining_indices x y =
      List.filter (fun i => i == c || i == z) [0, 1, 2, 3] := by
    unfold fifty_remaining_indices
    apply List.filter_congr
    intro i hi
    have hiff : ((i != x && i != y) = true) ↔ ((i == c || i == z) = true) := by
      simp only [Bool.and_eq_true, bne_iff_ne, Bool.or_eq_true, beq_iff_eq]
      constructor
      · rintro ⟨hix, hiy⟩
        by_contra hcon
        push_neg at hcon
        have hiW : i ∈ ([x, y, z] : List Int) := (hW i).mpr ⟨hi, hcon.1⟩
        have : i = x ∨ i = y ∨ i = z := by simpa using hiW
        rcases this with h | h | h
        · exact hix h
        · exact hiy h
        · exact hcon.2 h
      · rintro (rfl | rfl)
        · exact ⟨fun h => hx.2 h.symm, fun h => hy.2 h.symm⟩
        · exact ⟨fun h => hnd2.2.1 h.symm, fun h => hnd2.2.2 h.symm⟩
    cases hb1 : (i != x && i != y) <;> cases hb2 : (i == c || i == z) <;> simp_all
  have hcc : c = 0 ∨ c = 1 ∨ c = 2 ∨ c = 3 := by omega
  have hzz : z = 0 ∨ z = 1 ∨ z = 2 ∨ z = 3 := by
    have := hz.1
    simpa using this
  have hzc : z ≠ c := hz.2
  refine ⟨z, hzc, ?_, ?_, ?_⟩
  · rcases hzz with rfl | rfl | rfl | rfl <;> omega
  · rcases hzz with rfl | rfl | rfl | rfl <;> omega
  · rw [hfilter]
    rcases hcc with rfl | rfl | rfl | rfl <;> rcases hzz with rfl | rfl | rfl | rfl <;>
      first
        | exact absurd rfl hzc
        | decide

/-- Claim C9: the fifty joker succeeds only when the player exists, has
not used fifty, has not answered, and the current question is
multi-choice; on success the player is marked fifty-used and the 200
response returns the option strings at the two unremoved indices, which
are exactly the correct option index and one wrong index (for any
permutation the shuffle produces); on failure the response is the 400
joker-not-available outcome. -/
theorem C9_fifty_joker (questions : List Question) (s : Session) (cid : Int)
    (shuffle3 : List Int → List Int)
    (hsh : ∀ l, List.Perm (shuffle3 l) l) :
    (∀ e, use_joker_fifty questions s cid shuffle3 = .error e →
      handle_joker_fifty questions s cid shuffle3 =
        (⟨"400", "joker not available"⟩, [], s)) ∧
    (∀ s1 r0 r1, use_joker_fifty questions s cid shuffle3 = .ok (s1, r0, r1) →
      ∃ p, find_session_player s cid = some p ∧ p.joker_fifty_used = false ∧
        p.has_answered = false ∧
        ∃ q, get_current_question questions s = some q ∧ q.qtype = .qcm ∧
          (find_session_player s1 cid).map (fun p2 => p2.joker_fifty_used) =
            some true ∧
          handle_joker_fifty questions s cid shuffle3 =
            (⟨"200", "joker activated"⟩,
              (fifty_remaining_indices r0 r1).map
                (fun i => q.answers.getD i.toNat ""), s1) ∧
          (0 ≤ q.correct_answer → q.correct_answer < 4 →
            ∃ w, w ≠ q.correct_answer ∧ 0 ≤ w ∧ w < 4 ∧
              List.Perm (fifty_remaining_indices r0 r1)
                [q.correct_answer, w])) := by
  constructor
  · intro e he
    unfold handle_joker_fifty
    rw [he]
  · intro s1 r0 r1 hok
    have hok0 := hok
    unfold use_joker_fifty at hok
    cases hf : find_session_player s cid with
    | none => rw [hf] at hok; cases hok
    | some p =>
      simp only [hf] at hok
      by_cases hcond : (p.joker_fifty_used || p.has_answered) = true
      · rw [if_pos hcond] at hok; cases hok
      · rw [if_neg hcond] at hok
        simp only [Bool.or_eq_true, not_or, Bool.not_eq_true] at hcond
        cases hq : get_current_question questions s with
        | none => rw [hq] at hok; cases hok
        | some q =>
          simp only [hq] at hok
          by_cases hkind : q.qtype ≠ QuestionType.qcm
          · rw [if_pos hkind] at hok; cases hok
          · rw [if_neg hkind] at hok
            push_neg at hkind
            simp only [Except.ok.injEq, Prod.mk.injEq] at hok
            obtain ⟨hs1, hr0, hr1⟩ := hok
            subst hs1
            subst hr0
            subst hr1
            refine ⟨p, rfl, hcond.1, hcond.2, q, rfl, hkind, ?_, ?_, ?_⟩
            · rw [find_session_player_update s cid
                (fun p2 => { p2 with joker_fifty_used := true })
                (fun p2 => rfl) _ rfl, hf]
              rfl
            · unfold handle_joker_fifty
              rw [hok0, get_current_question_lookup questions s q hq]
            · intro hc0 hc1
              have hlen3 : (shuffle3 (([0, 1, 2, 3] : List Int).filter
                  (fun i => i != q.correct_answer))).length = 3 := by
                rw [(hsh _).length_eq]
                exact wrong_length_three q.correct_answer hc0 hc1
              obtain ⟨x, y, z, hxyz⟩ := List.length_eq_three.mp hlen3
              have hperm := hsh (([0, 1, 2, 3] : List Int).filter
                (fun i => i != q.correct_answer))
              rw [hxyz] at hperm
              rw [hxyz]
              exact fifty_remaining_spec q.correct_answer x y z hperm hc0 hc1

/-- Claim C9 witness: alice (fresh battle session on the QCM question,
correct option 2) uses fifty with the identity shuffle: the request
succeeds and the two remaining indices are the correct option 2 and a
wrong one. -/
theorem C9_witness :
    ∃ p, find_session_player battleQcmSession 1 = some p ∧
      p.joker_fifty_used = false ∧ p.has_answered = false ∧
      (handle_joker_fifty [qcmQ] battleQcmSession 1 idShuffle).1 =
        ⟨"200", "joker activated"⟩ ∧
      ∃ w, w ≠ (2 : Int) ∧
        List.Perm (fifty_remaining_indices 0 1) [(2 : Int), w] := by
  have h := (C9_fifty_joker [qcmQ] battleQcmSession 1 idShuffle
    (fun l => List.Perm.refl l)).2 _ 0 1 rfl
  obtain ⟨p, hp, hfu, ha, q, hq, hqcm, hmark, hhandler, hbounds⟩ := h
  have hq2 : q = qcmQ := by
    have hrfl : get_current_question [qcmQ] battleQcmSession = some qcmQ := rfl
    exact Option.some.inj (hq.symm.trans hrfl)
  subst hq2
  obtain ⟨w, hw1, hw0, hw4, hwperm⟩ := hbounds (by decide) (by decide)
  refine ⟨p, hp, hfu, ha, ?_, w, hw1, hwperm⟩
  rw [hhandler]

end QuizNet
